import Mathlib

/-!
Verification of the notion2ical core (record-to-event extraction, incremental
synchronization, pagination and the file-based incremental-state storage)
against its natural-language specification.

The TypeScript source is shallowly embedded: JavaScript `Date` instants are
modelled as `Int` milliseconds since the Unix epoch, calendar-date triples as
`DateOnly`, fallible operations as `Except`/`Option`, and the mutable event
map as an association list.  JavaScript's floor-division date algorithms are
modelled with `Int` Euclidean division (`/` and `%`), which coincides with
floor division for the positive constant divisors used throughout.
-/

set_option maxHeartbeats 1000000

/-- Calendar-date triple `[year, month, day]` (month 1-based), as produced by
`parseDateOnly` in the source.  Modelled from the spec: the current
`types/incremental-storage.ts` revision (which declares `DateOnly`) is not in
the snapshot; the spec describes all-day bounds as calendar-date triples. -/
structure DateOnly where
  year : Int
  month : Int
  day : Int
deriving DecidableEq, Repr

/-- True for leap years of the proleptic Gregorian calendar used by
ECMAScript UTC date computation. -/
def isLeap (y : Int) : Bool :=
  y % 4 == 0 && (y % 100 != 0 || y % 400 == 0)

/-- Number of days in a month of the proleptic Gregorian calendar. -/
def daysInMonth (y m : Int) : Int :=
  if m = 2 then (if isLeap y then 29 else 28)
  else if m = 4 ∨ m = 6 ∨ m = 9 ∨ m = 11 then 30
  else 31

/-- A calendar date that actually exists (month in range, day in range). -/
def isValidDate (y m d : Int) : Prop :=
  1 ≤ m ∧ m ≤ 12 ∧ 1 ≤ d ∧ d ≤ daysInMonth y m

instance (y m d : Int) : Decidable (isValidDate y m d) := by
  unfold isValidDate; infer_instance

/-- Day offset of the start of month `m` inside the March-based year used to
linearize the Gregorian calendar (March = 0). -/
def monthDayOffset (m : Int) : Int :=
  if m = 3 then 0 else if m = 4 then 31 else if m = 5 then 61
  else if m = 6 then 92 else if m = 7 then 122 else if m = 8 then 153
  else if m = 9 then 184 else if m = 10 then 214 else if m = 11 then 245
  else if m = 12 then 275 else if m = 1 then 306 else 337

/-- Days from 0000-03-01 to the start of March-based year `ys`
(the March-based year `ys` spans from `ys`-03-01 to `ys+1`-02-end). -/
def shiftedYearStart (ys : Int) : Int :=
  365 * ys + ys / 4 - ys / 100 + ys / 400

/-- Day number (days since 1970-01-01 UTC) of a calendar date whose month is
already in range `1..12`; the day may be out of range (ECMAScript `MakeDay`
treats it linearly). -/
def daysFromCivilValid (y m d : Int) : Int :=
  shiftedYearStart (if m ≤ 2 then y - 1 else y) + monthDayOffset m + (d - 1) - 719468

/-- Day number of a calendar date with arbitrary (possibly out-of-range)
month and day, normalizing the month exactly as ECMAScript `MakeDay` does. -/
def daysFromCivil (y m d : Int) : Int :=
  daysFromCivilValid (y + (m - 1) / 12) ((m - 1) % 12 + 1) d

/-- Calendar month and day-of-month of a day offset inside a March-based year
(`doy` ranging over `0..365`). -/
def doyToMonthDay (doy : Int) : Int × Int :=
  if doy < 31 then (3, doy + 1)
  else if doy < 61 then (4, doy - 30)
  else if doy < 92 then (5, doy - 60)
  else if doy < 122 then (6, doy - 91)
  else if doy < 153 then (7, doy - 121)
  else if doy < 184 then (8, doy - 152)
  else if doy < 214 then (9, doy - 183)
  else if doy < 245 then (10, doy - 213)
  else if doy < 275 then (11, doy - 244)
  else if doy < 306 then (12, doy - 274)
  else if doy < 337 then (1, doy - 305)
  else (2, doy - 336)

/-- 400-year era of a day number (March-based calendar). -/
def cfdEra (z : Int) : Int := (z + 719468) / 146097

/-- Day of era, in `0..146096`. -/
def cfdDoe (z : Int) : Int := (z + 719468) % 146097

/-- Century of era, in `0..3`. -/
def cfdC (z : Int) : Int := min (cfdDoe z / 36524) 3

/-- Day of century. -/
def cfdDic (z : Int) : Int := cfdDoe z - 36524 * cfdC z

/-- Four-year quad of century, in `0..24`. -/
def cfdQ (z : Int) : Int := min (cfdDic z / 1461) 24

/-- Day of quad. -/
def cfdDiq (z : Int) : Int := cfdDic z - 1461 * cfdQ z

/-- Year of quad, in `0..3`. -/
def cfdYiq (z : Int) : Int := min (cfdDiq z / 365) 3

/-- Day of the March-based year, in `0..365`. -/
def cfdDoy (z : Int) : Int := cfdDiq z - 365 * cfdYiq z

/-- March-based year of a day number. -/
def cfdYs (z : Int) : Int :=
  400 * cfdEra z + (100 * cfdC z + 4 * cfdQ z + cfdYiq z)

/-- Calendar date of a day number (inverse of `daysFromCivilValid`), by
decomposing into 400-year eras, centuries, 4-year quads and years of the
March-based calendar.  Models ECMAScript `YearFromTime`/`MonthFromTime`/
`DateFromTime` on whole days. -/
def civilFromDays (z : Int) : DateOnly :=
  let md := doyToMonthDay (cfdDoy z)
  ⟨if md.1 ≤ 2 then cfdYs z + 1 else cfdYs z, md.1, md.2⟩

/-- ECMAScript `Date.UTC` maps a year argument in `0..99` to `1900 + year`
before computing the day number. -/
def fixupYearJS (y : Int) : Int := if 0 ≤ y ∧ y ≤ 99 then y + 1900 else y

/-- Day number produced by `Date.UTC(y, month - 1, d)` for a 1-based month,
including the two-digit-year rule and ECMAScript month/day normalization. -/
def jsUTCdays (y m d : Int) : Int := daysFromCivil (fixupYearJS y) m d

/-- Milliseconds produced by `Date.UTC(y, month - 1, d)` for a 1-based month. -/
def jsUTCms (y m d : Int) : Int := 86400000 * jsUTCdays y m d

/-- The next calendar day: the specification-side meaning of "plus one
calendar day" with correct month, year and leap-day boundaries. -/
def civilSucc (v : DateOnly) : DateOnly :=
  if v.day < daysInMonth v.year v.month then ⟨v.year, v.month, v.day + 1⟩
  else if v.month < 12 then ⟨v.year, v.month + 1, 1⟩
  else ⟨v.year + 1, 1, 1⟩

/-- Typed errors raised per record during extraction (`types/errors`); the
human-readable message strings are not modelled, only the error kind and the
offending page/property identifiers. -/
inductive NotionError where
  | missingProperty (pageId property : String)
  | invalidPropertyType (pageId property actualType expectedType : String)
  | emptyDate (pageId : String)
  | dateValue (pageId : String)
  | duplicateEvent (eventId : String)
deriving DecidableEq, Repr

/-- Numeric value of a decimal digit character. -/
def digitVal (c : Char) : Int := (c.toNat : Int) - 48

/-- `parseDateOnly`: the strict `^(\d{4})-(\d{2})-(\d{2})$` match, decimal
parse of the three groups, and the `Date.UTC` NaN guard of the source. -/
def parseDateOnly (value : String) (pageId : String) :
    Except NotionError DateOnly :=
  match value.data with
  | [y1, y2, y3, y4, s1, m1, m2, s2, d1, d2] =>
    if s1 = '-' ∧ s2 = '-' ∧ y1.isDigit ∧ y2.isDigit ∧ y3.isDigit ∧ y4.isDigit ∧
        m1.isDigit ∧ m2.isDigit ∧ d1.isDigit ∧ d2.isDigit then
      let year := 1000 * digitVal y1 + 100 * digitVal y2 + 10 * digitVal y3 + digitVal y4
      let month := 10 * digitVal m1 + digitVal m2
      let day := 10 * digitVal d1 + digitVal d2
      if -8640000000000000 ≤ jsUTCms year month day ∧
          jsUTCms year month day ≤ 8640000000000000 then
        .ok ⟨year, month, day⟩
      else .error (.dateValue pageId)
    else .error (.dateValue pageId)
  | _ => .error (.dateValue pageId)

/-- `shiftDateOnly`: build a UTC `Date` from the triple, move its UTC
day-of-month by `days` via `setUTCDate`, read the components back. -/
def shiftDateOnly (date : DateOnly) (days : Int) : DateOnly :=
  let z := jsUTCdays date.year date.month date.day
  let c := civilFromDays z
  civilFromDays (daysFromCivilValid c.year c.month (c.day + days))

/-- `getExclusiveAllDayEnd`: start + 1 day when no (or empty) end value is
given; otherwise parse the inclusive end, reject ends before the start
(compared as `Date.UTC` milliseconds), and return end + 1 day. -/
def getExclusiveAllDayEnd (start : DateOnly) (inclusiveEnd : Option String)
    (pageId : String) : Except NotionError DateOnly :=
  match inclusiveEnd with
  | none => .ok (shiftDateOnly start 1)
  | some e =>
    if e = "" then .ok (shiftDateOnly start 1)
    else
      match parseDateOnly e pageId with
      | .error err => .error err
      | .ok parsedInclusiveEnd =>
        if jsUTCms parsedInclusiveEnd.year parsedInclusiveEnd.month
              parsedInclusiveEnd.day <
            jsUTCms start.year start.month start.day then
          .error (.dateValue pageId)
        else .ok (shiftDateOnly parsedInclusiveEnd 1)

/-- `hasTimeComponent`: a raw date value is timed iff the string contains
a `T`. -/
def hasTimeComponent (value : Option String) : Bool :=
  match value with
  | some s => s.data.contains 'T'
  | none => false

instance exceptDecEq {e a : Type} [DecidableEq e] [DecidableEq a] :
    DecidableEq (Except e a)
  | .ok x, .ok y =>
    if h : x = y then .isTrue (by rw [h]) else .isFalse fun hh => h (Except.ok.inj hh)
  | .ok _, .error _ => .isFalse fun hh => Except.noConfusion hh
  | .error _, .ok _ => .isFalse fun hh => Except.noConfusion hh
  | .error x, .error y =>
    if h : x = y then .isTrue (by rw [h]) else .isFalse fun hh => h (Except.error.inj hh)

/-- Timed event variant (`TimedNotionEvent`): instants in epoch ms. -/
structure TimedNotionEvent where
  id : String
  title : String
  start : Int
  end_ : Int
  description : String
  createdAt : Int
  updatedAt : Int
deriving DecidableEq, Repr

/-- All-day event variant (`AllDayNotionEvent`): calendar-date triples with
exclusive end. -/
structure AllDayNotionEvent where
  id : String
  title : String
  start : DateOnly
  end_ : DateOnly
  description : String
  createdAt : Int
  updatedAt : Int
deriving DecidableEq, Repr

/-- `NotionEvent`: the tagged union of the two variants (`kind` field of the
source is the constructor tag). -/
inductive NotionEvent where
  | timed (e : TimedNotionEvent)
  | allDay (e : AllDayNotionEvent)
deriving DecidableEq, Repr

def NotionEvent.id : NotionEvent → String
  | .timed e => e.id
  | .allDay e => e.id

/-- A Notion date property value: a start string and an optional inclusive
end string. -/
structure DateValue where
  start : String
  end_ : Option String
deriving DecidableEq, Repr

/-- The Notion property values relevant to extraction; any other declared
property type is `other`. -/
inductive PropertyValue where
  | title (runs : List String)
  | date (d : Option DateValue)
  | richText (runs : List String)
  | other (kind : String)
deriving DecidableEq, Repr

/-- The `type` string of a property value as reported by the Notion API. -/
def PropertyValue.typeName : PropertyValue → String
  | .title _ => "title"
  | .date _ => "date"
  | .richText _ => "rich_text"
  | .other k => k

/-- A raw Notion page: identifier, creation and last-modification instants
(the instants denoted by the ISO timestamp strings of the API), and the
mapping from property name to typed value. -/
structure PageObjectResponse where
  id : String
  created_time : Int
  last_edited_time : Int
  properties : List (String × PropertyValue)
deriving DecidableEq, Repr

/-- Model of `new Date(string)` restricted to the string shapes this
codebase feeds it: the strict `YYYY-MM-DDTHH:mm:ss.sssZ` format produced by
`toISOString`, and plain `YYYY-MM-DD` date-only strings (parsed as UTC
midnight).  Out-of-range fields and any other shape give `none` (NaN). -/
def jsDateParse (s : String) : Option Int :=
  match s.data with
  | [y1, y2, y3, y4, c1, m1, m2, c2, d1, d2, t, h1, h2, c3, i1, i2, c4,
      s1, s2, dot, f1, f2, f3, zc] =>
    if c1 = '-' ∧ c2 = '-' ∧ t = 'T' ∧ c3 = ':' ∧ c4 = ':' ∧ dot = '.' ∧ zc = 'Z' ∧
        y1.isDigit ∧ y2.isDigit ∧ y3.isDigit ∧ y4.isDigit ∧ m1.isDigit ∧ m2.isDigit ∧
        d1.isDigit ∧ d2.isDigit ∧ h1.isDigit ∧ h2.isDigit ∧ i1.isDigit ∧ i2.isDigit ∧
        s1.isDigit ∧ s2.isDigit ∧ f1.isDigit ∧ f2.isDigit ∧ f3.isDigit then
      let year := 1000 * digitVal y1 + 100 * digitVal y2 + 10 * digitVal y3 + digitVal y4
      let month := 10 * digitVal m1 + digitVal m2
      let day := 10 * digitVal d1 + digitVal d2
      let hh := 10 * digitVal h1 + digitVal h2
      let mi := 10 * digitVal i1 + digitVal i2
      let ss := 10 * digitVal s1 + digitVal s2
      let ms := 100 * digitVal f1 + 10 * digitVal f2 + digitVal f3
      if isValidDate year month day ∧ hh ≤ 23 ∧ mi ≤ 59 ∧ ss ≤ 59 then
        some (86400000 * daysFromCivilValid year month day +
          3600000 * hh + 60000 * mi + 1000 * ss + ms)
      else none
    else none
  | [y1, y2, y3, y4, c1, m1, m2, c2, d1, d2] =>
    if c1 = '-' ∧ c2 = '-' ∧ y1.isDigit ∧ y2.isDigit ∧ y3.isDigit ∧ y4.isDigit ∧
        m1.isDigit ∧ m2.isDigit ∧ d1.isDigit ∧ d2.isDigit then
      let year := 1000 * digitVal y1 + 100 * digitVal y2 + 10 * digitVal y3 + digitVal y4
      let month := 10 * digitVal m1 + digitVal m2
      let day := 10 * digitVal d1 + digitVal d2
      if isValidDate year month day then
        some (86400000 * daysFromCivilValid year month day)
      else none
    else none
  | _ => none

/-- `extractEventDetails`: the full validation pipeline of the source, in
order: title presence and kind, date presence, kind and non-empty start,
optional description presence and kind, then date normalization into the
all-day or timed variant. -/
def extractEventDetails (titlePropertyName datePropertyName : String)
    (descriptionPropertyName : Option String) (defaultDurationMs : Int)
    (page : PageObjectResponse) : Except NotionError NotionEvent :=
  let properties := page.properties
  let pageId := page.id
  match properties.lookup titlePropertyName with
  | none => .error (.missingProperty pageId titlePropertyName)
  | some titleProperty =>
  match titleProperty with
  | .title titleRuns =>
    match properties.lookup datePropertyName with
    | none => .error (.missingProperty pageId datePropertyName)
    | some dateProperty =>
    match dateProperty with
    | .date dval =>
      match dval with
      | none => .error (.emptyDate pageId)
      | some dv =>
        if dv.start = "" then .error (.emptyDate pageId)
        else
          let descR : Except NotionError String :=
            match descriptionPropertyName with
            | none => .ok ""
            | some dpn =>
              match properties.lookup dpn with
              | none => .error (.missingProperty pageId dpn)
              | some (.richText runs) => .ok (runs.headD "")
              | some p => .error (.invalidPropertyType pageId dpn p.typeName "rich_text")
          match descR with
          | .error e2 => .error e2
          | .ok description =>
            let title := titleRuns.headD "Untitled"
            let createdAt := page.created_time
            let updatedAt := page.last_edited_time
            let startRaw := dv.start
            let endRaw := dv.end_
            if ¬ (hasTimeComponent (some startRaw) = true) ∧
                ¬ (hasTimeComponent endRaw = true) then
              match parseDateOnly startRaw pageId with
              | .error e => .error e
              | .ok start =>
                match getExclusiveAllDayEnd start endRaw pageId with
                | .error e => .error e
                | .ok end_ =>
                  .ok (.allDay ⟨pageId, title, start, end_, description,
                    createdAt, updatedAt⟩)
            else
              match jsDateParse startRaw with
              | none => .error (.dateValue pageId)
              | some startMs =>
                match endRaw with
                | none =>
                  .ok (.timed ⟨pageId, title, startMs,
                    startMs + defaultDurationMs, description, createdAt, updatedAt⟩)
                | some es =>
                  match jsDateParse es with
                  | none => .error (.dateValue pageId)
                  | some endMs =>
                    .ok (.timed ⟨pageId, title, startMs, endMs, description,
                      createdAt, updatedAt⟩)
    | p => .error (.invalidPropertyType pageId datePropertyName p.typeName "date")
  | p => .error (.invalidPropertyType pageId titlePropertyName p.typeName "title")

/-- The working event map: record identifier to event.  The source uses a
plain object; modelled as an association list in insertion order. -/
abbrev NotionEventMap := List (String × NotionEvent)

/-- First binding of a key, mirroring object property lookup. -/
def NotionEventMap.lookup (m : NotionEventMap) (k : String) : Option NotionEvent :=
  List.lookup k m

/-- `accumulateEvents`: processes fetched pages in arrival order; a page
whose identifier is already bound is reported as a duplicate (the existing
binding is untouched), otherwise the record is extracted and inserted on
success; every error is routed to the page-error hook, modelled as the
returned error list (the default hook logs and skips). -/
def accumulateEvents (titlePropertyName datePropertyName : String)
    (descPropertyName : Option String) (defaultDurationMs : Int) :
    List PageObjectResponse → NotionEventMap →
    NotionEventMap × List (NotionError × PageObjectResponse)
  | [], eventsMap => (eventsMap, [])
  | page :: rest, eventsMap =>
    if (NotionEventMap.lookup eventsMap page.id).isSome then
      let acc := accumulateEvents titlePropertyName datePropertyName
        descPropertyName defaultDurationMs rest eventsMap
      (acc.1, (.duplicateEvent page.id, page) :: acc.2)
    else
      match extractEventDetails titlePropertyName datePropertyName
          descPropertyName defaultDurationMs page with
      | .ok event =>
        accumulateEvents titlePropertyName datePropertyName descPropertyName
          defaultDurationMs rest (eventsMap ++ [(event.id, event)])
      | .error err =>
        let acc := accumulateEvents titlePropertyName datePropertyName
          descPropertyName defaultDurationMs rest eventsMap
        (acc.1, (err, page) :: acc.2)

/-- A decimal digit character from its value `0..9`. -/
def digitChar (k : Int) : Char :=
  if k = 0 then '0' else if k = 1 then '1' else if k = 2 then '2'
  else if k = 3 then '3' else if k = 4 then '4' else if k = 5 then '5'
  else if k = 6 then '6' else if k = 7 then '7' else if k = 8 then '8' else '9'

def pad4 (n : Int) : List Char :=
  [digitChar (n / 1000 % 10), digitChar (n / 100 % 10),
   digitChar (n / 10 % 10), digitChar (n % 10)]

def pad2 (n : Int) : List Char := [digitChar (n / 10 % 10), digitChar (n % 10)]

def pad3 (n : Int) : List Char :=
  [digitChar (n / 100 % 10), digitChar (n / 10 % 10), digitChar (n % 10)]

/-- Characters of `Date.prototype.toISOString` for instants whose year lies
in `0..9999` (the four-digit `YYYY-MM-DDTHH:mm:ss.sssZ` form). -/
def isoChars (t : Int) : List Char :=
  let days := t / 86400000
  let tod := t % 86400000
  let v := civilFromDays days
  pad4 v.year ++ '-' :: pad2 v.month ++ '-' :: pad2 v.day ++
    'T' :: pad2 (tod / 3600000) ++ ':' :: pad2 (tod % 3600000 / 60000) ++
    ':' :: pad2 (tod % 60000 / 1000) ++ '.' :: pad3 (tod % 1000) ++ ['Z']

/-- Model of `Date.prototype.toISOString` (four-digit-year range). -/
def toIso (t : Int) : String := String.mk (isoChars t)

/-- Persisted incremental state.  Modelled from the spec: the current
`types/incremental-storage.ts` revision is absent from the snapshot; the
field and constructor order follows the revision present under `src/types`
(`lastFullSync`, `lastSynced`, `events`), and the monotonically increasing
schema version is modelled as the constant `1`. -/
structure NotionIncrementalState where
  lastFullSync : Int
  lastSynced : Int
  events : NotionEventMap
deriving DecidableEq, Repr

def NotionIncrementalState.SchemaVersion : Int := 1

/-- The digest input of `getCacheKey`: the order-sensitive `-`-join of the
conversion parameters, exactly the string fed to the MD5 hash.  `undefined`
entries (omitted description or bounds) join as the empty string, the
duration as its decimal representation, dates as their ISO strings.  The MD5
digest itself is abstracted away: equal inputs give equal digests, so key
claims are assessed on the digest input. -/
def getCacheKeyInput (databaseId titlePropertyName datePropertyName : String)
    (descPropertyName : Option String) (calendarName : String)
    (defaultDurationMs : Int) (fromDate untilDate : Option Int) : String :=
  String.intercalate "-"
    [databaseId, titlePropertyName, datePropertyName, descPropertyName.getD "",
     calendarName, toString defaultDurationMs,
     (fromDate.map toIso).getD "", (untilDate.map toIso).getD ""]

/-- One conjunct of the Notion query filter built by `fetchAllPages`. -/
inductive QueryFilterCond where
  | dateOnOrAfter (property : String) (iso : String)
  | dateOnOrBefore (property : String) (iso : String)
  | lastEditedOnOrAfter (iso : String)
deriving DecidableEq, Repr

/-- The conjunctive filter of `fetchAllPages`, in push order: date lower
bound, date upper bound, modification-time lower bound. -/
def buildFilter (datePropertyName : String) (from_ until_ editedSince : Option Int) :
    List QueryFilterCond :=
  (match from_ with
   | some f => [.dateOnOrAfter datePropertyName (toIso f)]
   | none => []) ++
  (match until_ with
   | some u => [.dateOnOrBefore datePropertyName (toIso u)]
   | none => []) ++
  (match editedSince with
   | some e => [.lastEditedOnOrAfter (toIso e)]
   | none => [])

/-- One page of query results from the Notion client. -/
structure QueryResponse where
  results : List PageObjectResponse
  next_cursor : Option String
deriving DecidableEq, Repr

/-- Outcome of the pagination walk. -/
inductive FetchOutcome where
  | ok (pages : List PageObjectResponse)
  | paginationError (cursor : Option String)
  | queryError
deriving DecidableEq, Repr

/-- The persistence collaborator as consumed by the core: key-value get/set,
either of which may fail (a rejected promise). -/
structure StorageRepo where
  get : String → Except Unit (Option NotionIncrementalState)
  set : String → NotionIncrementalState → Except Unit Unit

/-- Start/end attribute accepted by the `ics` encoder: numeric timestamp for
timed events, `[yyyy, m, d]` tuple for all-day events. -/
inductive IcsTime where
  | ms (t : Int)
  | dateTuple (d : DateOnly)
deriving DecidableEq, Repr

structure EventAttributes where
  uid : String
  start : IcsTime
  end_ : IcsTime
  title : String
  description : String
  created : Int
  lastModified : Int
deriving DecidableEq, Repr

structure HeaderAttributes where
  calName : String
  productId : String
deriving DecidableEq, Repr

/-- The `ics` encoder result object (`error` / `value`). -/
structure ICalResult where
  value : Option String
  error : Option String
deriving DecidableEq, Repr

/-- The external collaborators of one conversion run: the Notion client's
query operation (databaseId, filter, start cursor, page size), the optional
incremental storage, and the `ics` encoder. -/
structure ConvertWorld where
  query : String → List QueryFilterCond → Option String → Int →
    Except Unit QueryResponse
  incrementalUpdateStorage : Option StorageRepo
  createEvents : List EventAttributes → HeaderAttributes → ICalResult

/-- Externally visible operations of one conversion run, in order. -/
inductive ConvertEffect where
  | queried (cursor : Option String)
  | storageGet (key : String)
  | storageSet (key : String) (state : NotionIncrementalState)
deriving DecidableEq, Repr

/-- The pagination loop of `fetchAllPages`: abort with a pagination error if
the current cursor was already consumed, otherwise record it, query the
page, accumulate results and follow the next cursor.  `fuel` bounds the
model's recursion; `none` means the bound was hit (the walk itself is shown
to terminate with adequate fuel).  Also returns the cursors queried. -/
def fetchAllPagesAux (w : ConvertWorld) (databaseId : String)
    (filter : List QueryFilterCond) (pageSize : Int) :
    Nat → List (Option String) → Option String → List PageObjectResponse →
    Option (FetchOutcome × List (Option String))
  | 0, _, _, _ => none
  | Nat.succ fuel, seenCursors, cursor, all =>
    if cursor ∈ seenCursors then some (.paginationError cursor, [])
    else
      match w.query databaseId filter cursor pageSize with
      | .error _ => some (.queryError, [cursor])
      | .ok resp =>
        match resp.next_cursor with
        | none => some (.ok (all ++ resp.results), [cursor])
        | some c =>
          match fetchAllPagesAux w databaseId filter pageSize fuel
              (seenCursors ++ [cursor]) (some c) (all ++ resp.results) with
          | none => none
          | some (out, qs) => some (out, cursor :: qs)

def fetchAllPages (w : ConvertWorld) (databaseId datePropertyName : String)
    (from_ until_ editedSince : Option Int) (pageSize : Int) (fuel : Nat) :
    Option (FetchOutcome × List (Option String)) :=
  fetchAllPagesAux w databaseId (buildFilter datePropertyName from_ until_ editedSince)
    pageSize fuel [] none []

/-- The error kinds `convert` can fail with. -/
inductive ConvertError where
  | invalidArgument (argumentName : String)
  | pagination (cursor : Option String)
  | notionQuery
  | storage
  | calendarBuild
deriving DecidableEq, Repr

/-- `buildCalendar`: map each event of the final map into the encoder's
attribute shape (numeric instants for timed events, date tuples for all-day
events) and invoke the encoder with the calendar name header. -/
def buildCalendar (createEvents : List EventAttributes → HeaderAttributes → ICalResult)
    (eventsMap : NotionEventMap) (name : String) : ICalResult :=
  let icsEvents : List EventAttributes := eventsMap.map (fun p =>
    match p.2 with
    | .timed e =>
      ⟨e.id, .ms e.start, .ms e.end_, e.title, e.description, e.createdAt, e.updatedAt⟩
    | .allDay e =>
      ⟨e.id, .dateTuple e.start, .dateTuple e.end_, e.title, e.description,
        e.createdAt, e.updatedAt⟩)
  createEvents icsEvents ⟨name, "Notion2ICal"⟩

/-- One full `convert` run.  Returns the conversion result together with the
ordered list of external effects; `none` means the pagination fuel bound of
the model was hit.  `now` is the instant `new Date()` sampled as `syncedAt`.
The persisted state mirrors `new NotionIncrementalState(syncedAt,
lastFullSync, eventsMap)` against the constructor order
`(lastFullSync, lastSynced, events)` declared in `types/incremental-storage.ts`. -/
def convertCore (w : ConvertWorld) (pageSize : Int) (fuel : Nat) (now : Int)
    (databaseId titlePropertyName datePropertyName : String)
    (descPropertyName : Option String) (calendarName : String)
    (defaultDurationMs : Int) (fromDate untilDate : Option Int) :
    Option (Except ConvertError String × List ConvertEffect) :=
  let syncedAt := now
    let cacheKey := getCacheKeyInput databaseId titlePropertyName datePropertyName
      descPropertyName calendarName defaultDurationMs fromDate untilDate
    let getRes : Except ConvertError (Option NotionIncrementalState) :=
      match w.incrementalUpdateStorage with
      | none => .ok none
      | some repo =>
        match repo.get cacheKey with
        | .ok st => .ok st
        | .error _ => .error .storage
    let getEffs : List ConvertEffect :=
      match w.incrementalUpdateStorage with
      | none => []
      | some _ => [.storageGet cacheKey]
    match getRes with
    | .error e => some (.error e, getEffs)
    | .ok state =>
      let lastFullSync := (state.map (·.lastFullSync)).getD syncedAt
      let eventsMap : NotionEventMap := (state.map (·.events)).getD []
      match fetchAllPages w databaseId datePropertyName fromDate untilDate
          (state.map (·.lastSynced)) pageSize fuel with
      | none => none
      | some (.paginationError c, qs) =>
        some (.error (.pagination c), getEffs ++ qs.map .queried)
      | some (.queryError, qs) =>
        some (.error .notionQuery, getEffs ++ qs.map .queried)
      | some (.ok pages, qs) =>
        let acc := accumulateEvents titlePropertyName datePropertyName
          descPropertyName defaultDurationMs pages eventsMap
        let savedState : NotionIncrementalState := ⟨syncedAt, lastFullSync, acc.1⟩
        let setRes : Except ConvertError Unit :=
          match w.incrementalUpdateStorage with
          | none => .ok ()
          | some repo =>
            match repo.set cacheKey savedState with
            | .ok _ => .ok ()
            | .error _ => .error .storage
        let setEffs : List ConvertEffect :=
          match w.incrementalUpdateStorage with
          | none => []
          | some _ => [.storageSet cacheKey savedState]
        match setRes with
        | .error e => some (.error e, getEffs ++ qs.map .queried ++ setEffs)
        | .ok _ =>
          let calendarResult := buildCalendar w.createEvents acc.1 calendarName
          match calendarResult.value with
          | none =>
            some (.error .calendarBuild, getEffs ++ qs.map .queried ++ setEffs)
          | some text => some (.ok text, getEffs ++ qs.map .queried ++ setEffs)

/-- One full `convert` run: validate the date range, then run the core. -/
def convert (w : ConvertWorld) (pageSize : Int) (fuel : Nat) (now : Int)
    (databaseId titlePropertyName datePropertyName : String)
    (descPropertyName : Option String) (calendarName : String)
    (defaultDurationMs : Int) (fromDate untilDate : Option Int) :
    Option (Except ConvertError String × List ConvertEffect) :=
  let bad : Bool :=
    match fromDate, untilDate with
    | some f, some u => decide (u < f)
    | _, _ => false
  if bad then some (.error (.invalidArgument "fromDate"), [])
  else convertCore w pageSize fuel now databaseId titlePropertyName
    datePropertyName descPropertyName calendarName defaultDurationMs
    fromDate untilDate

/-- The `Notion2ICal` constructor's resolution of `pageSize`: the default is
applied with a falsy `||` (so an explicit `0` becomes `100`), then the
positivity check rejects what remains non-positive. -/
def constructorPageSize (pageSize : Option Int) : Except ConvertError Int :=
  let resolved : Int :=
    match pageSize with
    | none => 100
    | some v => if v = 0 then 100 else v
  if resolved ≤ 0 then .error (.invalidArgument "pageSize")
  else .ok resolved

/-- Serialized timed event: all four instants as ISO strings
(`SerializedTimedNotionEvent`). -/
structure SerializedTimedNotionEvent where
  id : String
  title : String
  start : String
  end_ : String
  description : String
  createdAt : String
  updatedAt : String
deriving DecidableEq, Repr

/-- Serialized all-day event: date triples kept as three integers, metadata
instants as ISO strings (`SerializedAllDayNotionEvent`). -/
structure SerializedAllDayNotionEvent where
  id : String
  title : String
  start : DateOnly
  end_ : DateOnly
  description : String
  createdAt : String
  updatedAt : String
deriving DecidableEq, Repr

inductive SerializedNotionEvent where
  | timed (e : SerializedTimedNotionEvent)
  | allDay (e : SerializedAllDayNotionEvent)
deriving DecidableEq, Repr

/-- The JSON document persisted per cache key
(`SerializedNotionIncrementalState`); `cacheSchemaVersion` is optional to
model the `?? 0` default applied on read. -/
structure SerializedNotionIncrementalState where
  cacheSchemaVersion : Option Int
  lastFullSync : String
  lastSynced : String
  events : List (String × SerializedNotionEvent)
deriving DecidableEq, Repr

/-- Contents of a cache file: either a parseable document or garbage on
which `JSON.parse` throws. -/
inductive FileContent where
  | doc (d : SerializedNotionIncrementalState)
  | garbage
deriving DecidableEq, Repr

/-- The file system visible to the storage backend: one file per path, plus
failure switches for `readFileSync` and `writeFileSync`. -/
structure FS where
  files : List (String × FileContent)
  readFails : Bool
  writeFails : Bool
deriving DecidableEq, Repr

def removeFile (fs : FS) (path : String) : FS :=
  { fs with files := fs.files.filter (fun p => p.1 ≠ path) }

def writeFile (fs : FS) (path : String) (content : FileContent) : FS :=
  { fs with files := (path, content) :: fs.files.filter (fun p => p.1 ≠ path) }

/-- `getCacheFilePath`: one JSON file per key in the repository directory
(the fixed directory prefix is omitted from the model). -/
def getCacheFilePath (cacheKey : String) : String := cacheKey ++ ".json"

def serializeEvent : NotionEvent → SerializedNotionEvent
  | .timed e =>
    .timed ⟨e.id, e.title, toIso e.start, toIso e.end_, e.description,
      toIso e.createdAt, toIso e.updatedAt⟩
  | .allDay e =>
    .allDay ⟨e.id, e.title, e.start, e.end_, e.description,
      toIso e.createdAt, toIso e.updatedAt⟩

/-- `serializeState`: ISO timestamps for the sync instants, per-event
serialization preserving the key of each entry, current schema version. -/
def serializeState (state : NotionIncrementalState) : SerializedNotionIncrementalState :=
  ⟨some NotionIncrementalState.SchemaVersion, toIso state.lastFullSync,
    toIso state.lastSynced,
    state.events.map (fun p => (p.1, serializeEvent p.2))⟩

/-- The model's representation of an invalid (`NaN`) `Date`, produced when
`new Date(string)` cannot parse its argument during rehydration. -/
def nanMs : Int := -8640000000000001

def jsDateOf (s : String) : Int := (jsDateParse s).getD nanMs

def rehydrateEvent : SerializedNotionEvent → NotionEvent
  | .timed e =>
    .timed ⟨e.id, e.title, jsDateOf e.start, jsDateOf e.end_, e.description,
      jsDateOf e.createdAt, jsDateOf e.updatedAt⟩
  | .allDay e =>
    .allDay ⟨e.id, e.title, e.start, e.end_, e.description,
      jsDateOf e.createdAt, jsDateOf e.updatedAt⟩

/-- `rehydrateState`: parse the instants back and rebuild the state (the
source's unknown-kind branch is unreachable in the two-variant model). -/
def rehydrateState (serialized : SerializedNotionIncrementalState) :
    NotionIncrementalState :=
  ⟨jsDateOf serialized.lastFullSync, jsDateOf serialized.lastSynced,
    serialized.events.map (fun p => (p.1, rehydrateEvent p.2))⟩

/-- `IncrementalStorageFileRepository.get`: absent file gives absent state;
any read or parse failure is swallowed (state absent, file untouched); a
schema-version mismatch or a stale snapshot deletes the file and gives
absent; otherwise the rehydrated state.  Returns the resulting file
system. -/
def fileRepoGet (maxCacheAgeMs now : Int) (fs : FS) (cacheKey : String) :
    Option NotionIncrementalState × FS :=
  let cacheFilePath := getCacheFilePath cacheKey
  match fs.files.lookup cacheFilePath with
  | none => (none, fs)
  | some content =>
    if fs.readFails then (none, fs)
    else
      match content with
      | .garbage => (none, fs)
      | .doc serializedState =>
        let cacheVersion := serializedState.cacheSchemaVersion.getD 0
        if cacheVersion ≠ NotionIncrementalState.SchemaVersion then
          (none, removeFile fs cacheFilePath)
        else
          let state := rehydrateState serializedState
          if maxCacheAgeMs ≠ 0 ∧ now - state.lastFullSync > maxCacheAgeMs then
            (none, removeFile fs cacheFilePath)
          else (some state, fs)

/-- `IncrementalStorageFileRepository.set`: serialize and write the state;
a write failure is caught, logged and swallowed, so the call always
resolves normally. -/
def fileRepoSet (fs : FS) (cacheKey : String) (state : NotionIncrementalState) :
    Except Unit Unit × FS :=
  let cacheFilePath := getCacheFilePath cacheKey
  if fs.writeFails then (.ok (), fs)
  else (.ok (), writeFile fs cacheFilePath (.doc (serializeState state)))

/-- Instants representable in the four-digit-year ISO range (epoch to
9999-12-31T23:59:59.999Z), where `toISOString` round-trips. -/
def msIsoSafe (t : Int) : Prop := 0 ≤ t ∧ t ≤ 253402300799999

instance (t : Int) : Decidable (msIsoSafe t) := by
  unfold msIsoSafe; infer_instance

/-- All instants of an event lie in the ISO-safe range. -/
def NotionEvent.isoSafe : NotionEvent → Prop
  | .timed e => msIsoSafe e.start ∧ msIsoSafe e.end_ ∧ msIsoSafe e.createdAt ∧
      msIsoSafe e.updatedAt
  | .allDay e => msIsoSafe e.createdAt ∧ msIsoSafe e.updatedAt

instance (ev : NotionEvent) : Decidable (NotionEvent.isoSafe ev) := by
  cases ev <;> (unfold NotionEvent.isoSafe; infer_instance)

def evC2 : NotionEvent := .timed ⟨"a", "E", 0, 0, "", 0, 0⟩

def pageC2 : PageObjectResponse := ⟨"a", 0, 0, []⟩

def wTriv : ConvertWorld :=
  ⟨fun _ _ _ _ => .error (), none, fun _ _ => ⟨none, some "x"⟩⟩

def oldEventC1 : NotionEvent := .timed ⟨"p1", "Old", 0, 3600000, "", 0, 0⟩

def priorStateC1 : NotionIncrementalState := ⟨0, 0, [("p1", oldEventC1)]⟩

def newPageC1 : PageObjectResponse :=
  ⟨"p1", 0, 99,
    [("T", .title ["New"]),
     ("D", .date (some ⟨"1970-01-02T00:00:00.000Z", none⟩))]⟩

def repoC1 : StorageRepo := ⟨fun _ => .ok (some priorStateC1), fun _ _ => .ok ()⟩

def worldC1 : ConvertWorld :=
  ⟨fun _ _ _ _ => .ok ⟨[newPageC1], none⟩, some repoC1, fun _ _ => ⟨some "ICS", none⟩⟩

def wCyc : ConvertWorld :=
  ⟨fun _ _ _ _ => .ok ⟨[], some "A"⟩, none, fun _ _ => ⟨some "x", none⟩⟩

def repoFailC6 : StorageRepo := ⟨fun _ => .error (), fun _ _ => .error ()⟩

def wFailC6 : ConvertWorld :=
  ⟨fun _ _ _ _ => .error (), some repoFailC6, fun _ _ => ⟨some "x", none⟩⟩

def fsWriteFail : FS := ⟨[], false, true⟩

def fsGarbageC7 : FS := ⟨[("k.json", .garbage)], false, false⟩

def fsOldVerC7 : FS := ⟨[("k.json", .doc ⟨some 0, "x", "y", []⟩)], false, false⟩

def NotionEvent.isTimed : NotionEvent → Bool
  | .timed _ => true
  | .allDay _ => false

def stC8 : NotionIncrementalState :=
  ⟨0, 0, [("t1", .timed ⟨"t1", "T", 0, 1000, "", 0, 0⟩),
          ("a1", .allDay ⟨"a1", "A", ⟨2024, 1, 1⟩, ⟨2024, 1, 2⟩, "", 0, 0⟩)]⟩

theorem shiftedYearStart_era (e r : Int) (h1 : 0 ≤ r) (h2 : r ≤ 399) :
    shiftedYearStart (400 * e + r) = 146097 * e + shiftedYearStart r := by
  unfold shiftedYearStart; omega

theorem shiftedYearStart_units (c q u : Int) (hc : 0 ≤ c) (hc2 : c ≤ 3)
    (hq : 0 ≤ q) (hq2 : q ≤ 24) (hu : 0 ≤ u) (hu2 : u ≤ 3) :
    shiftedYearStart (100 * c + 4 * q + u) = 36524 * c + 1461 * q + 365 * u := by
  unfold shiftedYearStart; omega

theorem monthDayOffset_bounds (m : Int) (h1 : 1 ≤ m) (h2 : m ≤ 12) :
    0 ≤ monthDayOffset m ∧ monthDayOffset m ≤ 337 ∧
    (m ≤ 2 → 306 ≤ monthDayOffset m) ∧ (3 ≤ m → monthDayOffset m ≤ 275) := by
  unfold monthDayOffset
  interval_cases m <;> norm_num

theorem daysInMonth_eq (y m : Int) :
    daysInMonth y m =
      if m = 2 then (if y % 4 = 0 ∧ (y % 100 ≠ 0 ∨ y % 400 = 0) then 29 else 28)
      else if m = 4 ∨ m = 6 ∨ m = 9 ∨ m = 11 then 30 else 31 := by
  unfold daysInMonth isLeap
  by_cases h : m = 2 <;>
    simp [h, Bool.and_eq_true, beq_iff_eq, Bool.or_eq_true, bne_iff_ne]

theorem monthDayOffset_eval :
    monthDayOffset 1 = 306 ∧ monthDayOffset 2 = 337 ∧ monthDayOffset 3 = 0 ∧
    monthDayOffset 4 = 31 ∧ monthDayOffset 5 = 61 ∧ monthDayOffset 6 = 92 ∧
    monthDayOffset 7 = 122 ∧ monthDayOffset 8 = 153 ∧ monthDayOffset 9 = 184 ∧
    monthDayOffset 10 = 214 ∧ monthDayOffset 11 = 245 ∧ monthDayOffset 12 = 275 := by
  decide

theorem daysInMonth_ne_two (y m : Int) (h : m ≠ 2) :
    daysInMonth y m = if m = 4 ∨ m = 6 ∨ m = 9 ∨ m = 11 then 30 else 31 := by
  rw [daysInMonth_eq, if_neg h]

theorem doyToMonthDay_eq (doy m d : Int) (h1 : 0 ≤ doy) (h2 : doy ≤ 365)
    (h : doyToMonthDay doy = (m, d)) (y : Int) :
    1 ≤ m ∧ m ≤ 12 ∧ 1 ≤ d ∧ monthDayOffset m + d - 1 = doy ∧
    (d ≤ daysInMonth y m ∨ (m = 2 ∧ d = 29 ∧ doy = 365)) := by
  obtain ⟨e1, e2, e3, e4, e5, e6, e7, e8, e9, e10, e11, e12⟩ := monthDayOffset_eval
  rw [doyToMonthDay] at h
  split at h <;> [skip; split at h] <;> [skip; skip; split at h] <;>
    [skip; skip; skip; split at h] <;> [skip; skip; skip; skip; split at h] <;>
    [skip; skip; skip; skip; skip; split at h] <;>
    [skip; skip; skip; skip; skip; skip; split at h] <;>
    [skip; skip; skip; skip; skip; skip; skip; split at h] <;>
    [skip; skip; skip; skip; skip; skip; skip; skip; split at h] <;>
    [skip; skip; skip; skip; skip; skip; skip; skip; skip; split at h] <;>
    [skip; skip; skip; skip; skip; skip; skip; skip; skip; skip; split at h] <;>
    injection h with hm hd <;> subst hm <;> subst hd
  case isTrue =>
    refine ⟨by norm_num, by norm_num, by omega, by omega, Or.inl ?_⟩
    rw [daysInMonth_ne_two y 3 (by norm_num)]; norm_num; omega
  case isTrue =>
    refine ⟨by norm_num, by norm_num, by omega, by omega, Or.inl ?_⟩
    rw [daysInMonth_ne_two y 4 (by norm_num)]; norm_num; omega
  case isTrue =>
    refine ⟨by norm_num, by norm_num, by omega, by omega, Or.inl ?_⟩
    rw [daysInMonth_ne_two y 5 (by norm_num)]; norm_num; omega
  case isTrue =>
    refine ⟨by norm_num, by norm_num, by omega, by omega, Or.inl ?_⟩
    rw [daysInMonth_ne_two y 6 (by norm_num)]; norm_num; omega
  case isTrue =>
    refine ⟨by norm_num, by norm_num, by omega, by omega, Or.inl ?_⟩
    rw [daysInMonth_ne_two y 7 (by norm_num)]; norm_num; omega
  case isTrue =>
    refine ⟨by norm_num, by norm_num, by omega, by omega, Or.inl ?_⟩
    rw [daysInMonth_ne_two y 8 (by norm_num)]; norm_num; omega
  case isTrue =>
    refine ⟨by norm_num, by norm_num, by omega, by omega, Or.inl ?_⟩
    rw [daysInMonth_ne_two y 9 (by norm_num)]; norm_num; omega
  case isTrue =>
    refine ⟨by norm_num, by norm_num, by omega, by omega, Or.inl ?_⟩
    rw [daysInMonth_ne_two y 10 (by norm_num)]; norm_num; omega
  case isTrue =>
    refine ⟨by norm_num, by norm_num, by omega, by omega, Or.inl ?_⟩
    rw [daysInMonth_ne_two y 11 (by norm_num)]; norm_num; omega
  case isTrue =>
    refine ⟨by norm_num, by norm_num, by omega, by omega, Or.inl ?_⟩
    rw [daysInMonth_ne_two y 12 (by norm_num)]; norm_num; omega
  case isTrue =>
    refine ⟨by norm_num, by norm_num, by omega, by omega, Or.inl ?_⟩
    rw [daysInMonth_ne_two y 1 (by norm_num)]; norm_num; omega
  case isFalse =>
    by_cases h29 : doy = 365
    · exact ⟨by norm_num, by norm_num, by omega, by omega, Or.inr ⟨rfl, by omega, h29⟩⟩
    · refine ⟨by norm_num, by norm_num, by omega, by omega, Or.inl ?_⟩
      rw [daysInMonth_eq]; norm_num
      split <;> omega

theorem shiftedYearStart_century (r : Int) (h1 : 0 ≤ r) (h2 : r ≤ 399) :
    shiftedYearStart r = 36524 * (r / 100) + 1461 * (r % 100 / 4) + 365 * (r % 4) := by
  unfold shiftedYearStart; omega

theorem cfd_bounds (z : Int) :
    0 ≤ cfdDoe z ∧ cfdDoe z ≤ 146096 ∧ 0 ≤ cfdC z ∧ cfdC z ≤ 3 ∧
    0 ≤ cfdDic z ∧ cfdDic z ≤ 36524 ∧ (cfdC z ≤ 2 → cfdDic z ≤ 36523) ∧
    0 ≤ cfdQ z ∧ cfdQ z ≤ 24 ∧ 0 ≤ cfdDiq z ∧ cfdDiq z ≤ 1460 ∧
    0 ≤ cfdYiq z ∧ cfdYiq z ≤ 3 ∧ 0 ≤ cfdDoy z ∧ cfdDoy z ≤ 365 ∧
    (cfdDoy z = 365 → cfdYiq z = 3 ∧ (cfdQ z = 24 → cfdC z = 3)) := by
  have h1 : cfdDoe z = (z + 719468) % 146097 := rfl
  have h2 : cfdC z = min (cfdDoe z / 36524) 3 := rfl
  have h3 : cfdDic z = cfdDoe z - 36524 * cfdC z := rfl
  have h4 : cfdQ z = min (cfdDic z / 1461) 24 := rfl
  have h5 : cfdDiq z = cfdDic z - 1461 * cfdQ z := rfl
  have h6 : cfdYiq z = min (cfdDiq z / 365) 3 := rfl
  have h7 : cfdDoy z = cfdDiq z - 365 * cfdYiq z := rfl
  omega

theorem civilFromDays_spec (z : Int) :
    isValidDate (civilFromDays z).year (civilFromDays z).month (civilFromDays z).day ∧
    daysFromCivilValid (civilFromDays z).year (civilFromDays z).month
      (civilFromDays z).day = z := by
  obtain ⟨m, d, hmd⟩ : ∃ m d, doyToMonthDay (cfdDoy z) = (m, d) := ⟨_, _, rfl⟩
  have hb := cfd_bounds z
  have hcomp : civilFromDays z =
      ⟨if m ≤ 2 then cfdYs z + 1 else cfdYs z, m, d⟩ := by
    rw [civilFromDays, hmd]
  rw [hcomp]
  dsimp only
  obtain ⟨hm1, hm2, hd1, hoff, hdisj⟩ :=
    doyToMonthDay_eq (cfdDoy z) m d (by omega) (by omega) hmd
      (if m ≤ 2 then cfdYs z + 1 else cfdYs z)
  have hera : cfdDoe z = (z + 719468) % 146097 := rfl
  have herad : cfdEra z = (z + 719468) / 146097 := rfl
  have hdic : cfdDic z = cfdDoe z - 36524 * cfdC z := rfl
  have hdiq : cfdDiq z = cfdDic z - 1461 * cfdQ z := rfl
  have hdoy : cfdDoy z = cfdDiq z - 365 * cfdYiq z := rfl
  have hys : cfdYs z = 400 * cfdEra z + (100 * cfdC z + 4 * cfdQ z + cfdYiq z) := rfl
  have hysval : (if m ≤ 2 then (if m ≤ 2 then cfdYs z + 1 else cfdYs z) - 1
      else (if m ≤ 2 then cfdYs z + 1 else cfdYs z)) = cfdYs z := by
    by_cases h : m ≤ 2 <;> simp [h]
  constructor
  · refine ⟨hm1, hm2, hd1, ?_⟩
    rcases hdisj with h | ⟨hm2', hd29, h365⟩
    · exact h
    · subst hm2'
      have hyeq : (if (2:Int) ≤ 2 then cfdYs z + 1 else cfdYs z) = cfdYs z + 1 := by norm_num
      rw [hyeq, daysInMonth_eq, if_pos (show (2:Int) = 2 from rfl)]
      have hleap : (cfdYs z + 1) % 4 = 0 ∧
          ((cfdYs z + 1) % 100 ≠ 0 ∨ (cfdYs z + 1) % 400 = 0) := by
        omega
      rw [if_pos hleap]
      omega
  · rw [daysFromCivilValid, hysval, hys,
      shiftedYearStart_era (cfdEra z) (100 * cfdC z + 4 * cfdQ z + cfdYiq z)
        (by omega) (by omega),
      shiftedYearStart_units (cfdC z) (cfdQ z) (cfdYiq z)
        (by omega) (by omega) (by omega) (by omega) (by omega) (by omega)]
    omega

theorem daysInMonth_le (y m : Int) : daysInMonth y m ≤ 31 := by
  rw [daysInMonth_eq]; split_ifs <;> omega

theorem daysInMonth_feb_le (y : Int) : daysInMonth y 2 ≤ 29 := by
  rw [daysInMonth_eq]; split_ifs <;> omega

theorem daysInMonth_feb29 (y : Int) (h : 29 ≤ daysInMonth y 2) :
    y % 4 = 0 ∧ (y % 100 ≠ 0 ∨ y % 400 = 0) := by
  rw [daysInMonth_eq, if_pos (show (2:Int) = 2 from rfl)] at h
  split_ifs at h with hl
  · exact hl
  · omega

theorem daysInMonth_short (y m : Int) (h : m = 4 ∨ m = 6 ∨ m = 9 ∨ m = 11) :
    daysInMonth y m = 30 := by
  rw [daysInMonth_eq, if_neg (by omega), if_pos h]

theorem doyToMonthDay_of_month (m d : Int) (h1 : 1 ≤ m) (h2 : m ≤ 12)
    (hd1 : 1 ≤ d) (hd2 : d ≤ 31) (hfeb : m = 2 → d ≤ 29)
    (h30 : (m = 4 ∨ m = 6 ∨ m = 9 ∨ m = 11) → d ≤ 30) :
    doyToMonthDay (monthDayOffset m + d - 1) = (m, d) := by
  obtain ⟨e1, e2, e3, e4, e5, e6, e7, e8, e9, e10, e11, e12⟩ := monthDayOffset_eval
  interval_cases m
  · rw [e1, doyToMonthDay]
    rw [if_neg (show ¬((306:Int) + d - 1 < 31) by omega),
      if_neg (show ¬((306:Int) + d - 1 < 61) by omega),
      if_neg (show ¬((306:Int) + d - 1 < 92) by omega),
      if_neg (show ¬((306:Int) + d - 1 < 122) by omega),
      if_neg (show ¬((306:Int) + d - 1 < 153) by omega),
      if_neg (show ¬((306:Int) + d - 1 < 184) by omega),
      if_neg (show ¬((306:Int) + d - 1 < 214) by omega),
      if_neg (show ¬((306:Int) + d - 1 < 245) by omega),
      if_neg (show ¬((306:Int) + d - 1 < 275) by omega),
      if_neg (show ¬((306:Int) + d - 1 < 306) by omega),
      if_pos (show ((306:Int) + d - 1 < 337) by omega)]
    simp only [Prod.mk.injEq]
    exact ⟨trivial, by omega⟩
  · rw [e2, doyToMonthDay]
    rw [if_neg (show ¬((337:Int) + d - 1 < 31) by omega),
      if_neg (show ¬((337:Int) + d - 1 < 61) by omega),
      if_neg (show ¬((337:Int) + d - 1 < 92) by omega),
      if_neg (show ¬((337:Int) + d - 1 < 122) by omega),
      if_neg (show ¬((337:Int) + d - 1 < 153) by omega),
      if_neg (show ¬((337:Int) + d - 1 < 184) by omega),
      if_neg (show ¬((337:Int) + d - 1 < 214) by omega),
      if_neg (show ¬((337:Int) + d - 1 < 245) by omega),
      if_neg (show ¬((337:Int) + d - 1 < 275) by omega),
      if_neg (show ¬((337:Int) + d - 1 < 306) by omega),
      if_neg (show ¬((337:Int) + d - 1 < 337) by omega)]
    simp only [Prod.mk.injEq]
    exact ⟨trivial, by omega⟩
  · rw [e3, doyToMonthDay]
    rw [if_pos (show ((0:Int) + d - 1 < 31) by omega)]
    simp only [Prod.mk.injEq]
    exact ⟨trivial, by omega⟩
  · rw [e4, doyToMonthDay]
    rw [if_neg (show ¬((31:Int) + d - 1 < 31) by omega),
      if_pos (show ((31:Int) + d - 1 < 61) by omega)]
    simp only [Prod.mk.injEq]
    exact ⟨trivial, by omega⟩
  · rw [e5, doyToMonthDay]
    rw [if_neg (show ¬((61:Int) + d - 1 < 31) by omega),
      if_neg (show ¬((61:Int) + d - 1 < 61) by omega),
      if_pos (show ((61:Int) + d - 1 < 92) by omega)]
    simp only [Prod.mk.injEq]
    exact ⟨trivial, by omega⟩
  · rw [e6, doyToMonthDay]
    rw [if_neg (show ¬((92:Int) + d - 1 < 31) by omega),
      if_neg (show ¬((92:Int) + d - 1 < 61) by omega),
      if_neg (show ¬((92:Int) + d - 1 < 92) by omega),
      if_pos (show ((92:Int) + d - 1 < 122) by omega)]
    simp only [Prod.mk.injEq]
    exact ⟨trivial, by omega⟩
  · rw [e7, doyToMonthDay]
    rw [if_neg (show ¬((122:Int) + d - 1 < 31) by omega),
      if_neg (show ¬((122:Int) + d - 1 < 61) by omega),
      if_neg (show ¬((122:Int) + d - 1 < 92) by omega),
      if_neg (show ¬((122:Int) + d - 1 < 122) by omega),
      if_pos (show ((122:Int) + d - 1 < 153) by omega)]
    simp only [Prod.mk.injEq]
    exact ⟨trivial, by omega⟩
  · rw [e8, doyToMonthDay]
    rw [if_neg (show ¬((153:Int) + d - 1 < 31) by omega),
      if_neg (show ¬((153:Int) + d - 1 < 61) by omega),
      if_neg (show ¬((153:Int) + d - 1 < 92) by omega),
      if_neg (show ¬((153:Int) + d - 1 < 122) by omega),
      if_neg (show ¬((153:Int) + d - 1 < 153) by omega),
      if_pos (show ((153:Int) + d - 1 < 184) by omega)]
    simp only [Prod.mk.injEq]
    exact ⟨trivial, by omega⟩
  · rw [e9, doyToMonthDay]
    rw [if_neg (show ¬((184:Int) + d - 1 < 31) by omega),
      if_neg (show ¬((184:Int) + d - 1 < 61) by omega),
      if_neg (show ¬((184:Int) + d - 1 < 92) by omega),
      if_neg (show ¬((184:Int) + d - 1 < 122) by omega),
      if_neg (show ¬((184:Int) + d - 1 < 153) by omega),
      if_neg (show ¬((184:Int) + d - 1 < 184) by omega),
      if_pos (show ((184:Int) + d - 1 < 214) by omega)]
    simp only [Prod.mk.injEq]
    exact ⟨trivial, by omega⟩
  · rw [e10, doyToMonthDay]
    rw [if_neg (show ¬((214:Int) + d - 1 < 31) by omega),
      if_neg (show ¬((214:Int) + d - 1 < 61) by omega),
      if_neg (show ¬((214:Int) + d - 1 < 92) by omega),
      if_neg (show ¬((214:Int) + d - 1 < 122) by omega),
      if_neg (show ¬((214:Int) + d - 1 < 153) by omega),
      if_neg (show ¬((214:Int) + d - 1 < 184) by omega),
      if_neg (show ¬((214:Int) + d - 1 < 214) by omega),
      if_pos (show ((214:Int) + d - 1 < 245) by omega)]
    simp only [Prod.mk.injEq]
    exact ⟨trivial, by omega⟩
  · rw [e11, doyToMonthDay]
    rw [if_neg (show ¬((245:Int) + d - 1 < 31) by omega),
      if_neg (show ¬((245:Int) + d - 1 < 61) by omega),
      if_neg (show ¬((245:Int) + d - 1 < 92) by omega),
      if_neg (show ¬((245:Int) + d - 1 < 122) by omega),
      if_neg (show ¬((245:Int) + d - 1 < 153) by omega),
      if_neg (show ¬((245:Int) + d - 1 < 184) by omega),
      if_neg (show ¬((245:Int) + d - 1 < 214) by omega),
      if_neg (show ¬((245:Int) + d - 1 < 245) by omega),
      if_pos (show ((245:Int) + d - 1 < 275) by omega)]
    simp only [Prod.mk.injEq]
    exact ⟨trivial, by omega⟩
  · rw [e12, doyToMonthDay]
    rw [if_neg (show ¬((275:Int) + d - 1 < 31) by omega),
      if_neg (show ¬((275:Int) + d - 1 < 61) by omega),
      if_neg (show ¬((275:Int) + d - 1 < 92) by omega),
      if_neg (show ¬((275:Int) + d - 1 < 122) by omega),
      if_neg (show ¬((275:Int) + d - 1 < 153) by omega),
      if_neg (show ¬((275:Int) + d - 1 < 184) by omega),
      if_neg (show ¬((275:Int) + d - 1 < 214) by omega),
      if_neg (show ¬((275:Int) + d - 1 < 245) by omega),
      if_neg (show ¬((275:Int) + d - 1 < 275) by omega),
      if_pos (show ((275:Int) + d - 1 < 306) by omega)]
    simp only [Prod.mk.injEq]
    exact ⟨trivial, by omega⟩

theorem rec_era (zp ys doy0 : Int)
    (hz : zp = 146097 * (ys / 400) +
      (36524 * (ys % 400 / 100) + 1461 * (ys % 400 % 100 / 4) + 365 * (ys % 400 % 4)) +
      doy0)
    (hdoy : 0 ≤ doy0 ∧ doy0 ≤ 365) :
    zp / 146097 = ys / 400 ∧ zp % 146097 =
      36524 * (ys % 400 / 100) + 1461 * (ys % 400 % 100 / 4) + 365 * (ys % 400 % 4) +
        doy0 := by
  constructor <;> omega

theorem rec_c (c0 q0 u0 doy0 : Int)
    (hc : 0 ≤ c0 ∧ c0 ≤ 3) (hq : 0 ≤ q0 ∧ q0 ≤ 24) (hu : 0 ≤ u0 ∧ u0 ≤ 3)
    (hdoy : 0 ≤ doy0 ∧ doy0 ≤ 365)
    (hleap1 : doy0 = 365 → u0 = 3)
    (hleap2 : doy0 = 365 → q0 = 24 → c0 = 3) :
    min ((36524 * c0 + 1461 * q0 + 365 * u0 + doy0) / 36524) 3 = c0 := by
  by_cases h365 : doy0 = 365
  · by_cases hq24 : q0 = 24
    · have hc3 := hleap2 h365 hq24
      have hu3 := hleap1 h365
      subst hc3; subst hq24; subst hu3; subst h365
      decide
    · omega
  · omega

theorem rec_q (q0 u0 doy0 : Int)
    (hq : 0 ≤ q0 ∧ q0 ≤ 24) (hu : 0 ≤ u0 ∧ u0 ≤ 3)
    (hdoy : 0 ≤ doy0 ∧ doy0 ≤ 365) :
    min ((1461 * q0 + 365 * u0 + doy0) / 1461) 24 = q0 := by
  omega

theorem rec_yiq (u0 doy0 : Int)
    (hu : 0 ≤ u0 ∧ u0 ≤ 3) (hdoy : 0 ≤ doy0 ∧ doy0 ≤ 365)
    (hleap1 : doy0 = 365 → u0 = 3) :
    min ((365 * u0 + doy0) / 365) 3 = u0 := by
  by_cases h365 : doy0 = 365
  · have := hleap1 h365
    omega
  · omega

theorem rec_ys (ys : Int) :
    400 * (ys / 400) + (100 * (ys % 400 / 100) + 4 * (ys % 400 % 100 / 4) +
      ys % 400 % 4) = ys := by
  omega

theorem ys_mod_bounds (ys : Int) :
    (0 ≤ ys % 400 / 100 ∧ ys % 400 / 100 ≤ 3) ∧
    (0 ≤ ys % 400 % 100 / 4 ∧ ys % 400 % 100 / 4 ≤ 24) ∧
    (0 ≤ ys % 400 % 4 ∧ ys % 400 % 4 ≤ 3) := by
  omega

theorem cfd_recover_core (zp ys doy0 E A C DIC Q DIQ YIQ DOY YS : Int)
    (hE : E = zp / 146097) (hA : A = zp % 146097)
    (hC : C = min (A / 36524) 3) (hDIC : DIC = A - 36524 * C)
    (hQ : Q = min (DIC / 1461) 24) (hDIQ : DIQ = DIC - 1461 * Q)
    (hYIQ : YIQ = min (DIQ / 365) 3) (hDOY : DOY = DIQ - 365 * YIQ)
    (hYS : YS = 400 * E + (100 * C + 4 * Q + YIQ))
    (hz : zp = 146097 * (ys / 400) +
      (36524 * (ys % 400 / 100) + 1461 * (ys % 400 % 100 / 4) + 365 * (ys % 400 % 4)) +
      doy0)
    (hdoy : 0 ≤ doy0 ∧ doy0 ≤ 365)
    (hleap1 : doy0 = 365 → ys % 400 % 4 = 3)
    (hleap2 : doy0 = 365 → ys % 400 % 100 / 4 = 24 → ys % 400 / 100 = 3) :
    DOY = doy0 ∧ YS = ys := by
  obtain ⟨hb1, hb2, hb3⟩ := ys_mod_bounds ys
  obtain ⟨hera1, hera2⟩ := rec_era zp ys doy0 hz hdoy
  rw [hera1] at hE
  rw [hera2] at hA
  subst hA
  rw [rec_c (ys % 400 / 100) (ys % 400 % 100 / 4) (ys % 400 % 4) doy0
    hb1 hb2 hb3 hdoy hleap1 hleap2] at hC
  subst hC
  have hDIC' : DIC = 1461 * (ys % 400 % 100 / 4) + 365 * (ys % 400 % 4) + doy0 := by
    rw [hDIC]; ring
  rw [hDIC'] at hQ
  rw [rec_q (ys % 400 % 100 / 4) (ys % 400 % 4) doy0 hb2 hb3 hdoy] at hQ
  subst hQ
  have hDIQ' : DIQ = 365 * (ys % 400 % 4) + doy0 := by
    rw [hDIQ, hDIC']; ring
  rw [hDIQ'] at hYIQ
  rw [rec_yiq (ys % 400 % 4) doy0 hb3 hdoy hleap1] at hYIQ
  subst hYIQ
  constructor
  · rw [hDOY, hDIQ']; ring
  · rw [hYS, hE, rec_ys ys]

theorem cfd_recover (z ys doy0 : Int)
    (hz : z + 719468 = 146097 * (ys / 400) +
      (36524 * (ys % 400 / 100) + 1461 * (ys % 400 % 100 / 4) + 365 * (ys % 400 % 4)) +
      doy0)
    (hdoy : 0 ≤ doy0 ∧ doy0 ≤ 365)
    (hleap1 : doy0 = 365 → ys % 400 % 4 = 3)
    (hleap2 : doy0 = 365 → ys % 400 % 100 / 4 = 24 → ys % 400 / 100 = 3) :
    cfdDoy z = doy0 ∧ cfdYs z = ys :=
  cfd_recover_core (z + 719468) ys doy0 (cfdEra z) (cfdDoe z) (cfdC z) (cfdDic z)
    (cfdQ z) (cfdDiq z) (cfdYiq z) (cfdDoy z) (cfdYs z)
    rfl rfl rfl rfl rfl rfl rfl rfl rfl hz hdoy hleap1 hleap2

theorem civilFromDays_daysFromCivilValid (y m d : Int) (hv : isValidDate y m d) :
    civilFromDays (daysFromCivilValid y m d) = ⟨y, m, d⟩ := by
  obtain ⟨hm1, hm2, hd1, hd2⟩ := hv
  have hd31 : d ≤ 31 := le_trans hd2 (daysInMonth_le y m)
  have hfeb : m = 2 → d ≤ 29 := by
    intro h; subst h; exact le_trans hd2 (daysInMonth_feb_le y)
  have h30 : (m = 4 ∨ m = 6 ∨ m = 9 ∨ m = 11) → d ≤ 30 := fun h => by
    have := daysInMonth_short y m h; omega
  have hfeb29 : m = 2 → d = 29 → y % 4 = 0 ∧ (y % 100 ≠ 0 ∨ y % 400 = 0) := by
    intro hm hd; subst hm; exact daysInMonth_feb29 y (by omega)
  have hzeq : daysFromCivilValid y m d =
      shiftedYearStart (if m ≤ 2 then y - 1 else y) + monthDayOffset m + (d - 1) -
        719468 := rfl
  generalize hgen : daysFromCivilValid y m d = z at hzeq ⊢
  obtain ⟨ys, hysdef⟩ : ∃ w, (if m ≤ 2 then y - 1 else y) = w := ⟨_, rfl⟩
  rw [hysdef] at hzeq
  have hyscase : (m ≤ 2 ∧ ys = y - 1) ∨ (¬ m ≤ 2 ∧ ys = y) := by
    by_cases h : m ≤ 2
    · left; constructor; exact h; omega
    · right; constructor; exact h; omega
  have hr0 : 0 ≤ ys % 400 ∧ ys % 400 ≤ 399 := by omega
  have hstart : shiftedYearStart ys = 146097 * (ys / 400) +
      (36524 * (ys % 400 / 100) + 1461 * (ys % 400 % 100 / 4) + 365 * (ys % 400 % 4)) := by
    conv_lhs => rw [show ys = 400 * (ys / 400) + ys % 400 by omega]
    rw [shiftedYearStart_era _ _ hr0.1 hr0.2, shiftedYearStart_century _ hr0.1 hr0.2]
  obtain ⟨e1, e2, e3, e4, e5, e6, e7, e8, e9, e10, e11, e12⟩ := monthDayOffset_eval
  have hdoy0 : 0 ≤ monthDayOffset m + d - 1 ∧ monthDayOffset m + d - 1 ≤ 365 ∧
      (monthDayOffset m + d - 1 = 365 → m = 2 ∧ d = 29) := by
    interval_cases m <;> omega
  have hleap1 : monthDayOffset m + d - 1 = 365 → ys % 400 % 4 = 3 := by
    intro h365
    obtain ⟨hm2', hd29⟩ := hdoy0.2.2 h365
    obtain ⟨hmod4, hmod100⟩ := hfeb29 hm2' hd29
    omega
  have hleap2 : monthDayOffset m + d - 1 = 365 →
      ys % 400 % 100 / 4 = 24 → ys % 400 / 100 = 3 := by
    intro h365 hq24
    obtain ⟨hm2', hd29⟩ := hdoy0.2.2 h365
    obtain ⟨hmod4, hmod100⟩ := hfeb29 hm2' hd29
    omega
  obtain ⟨hrecDoy, hrecYs⟩ :=
    cfd_recover z ys (monthDayOffset m + d - 1)
      (by omega) ⟨hdoy0.1, hdoy0.2.1⟩ hleap1 hleap2
  have hmd : doyToMonthDay (cfdDoy z) = (m, d) := by
    rw [hrecDoy, show monthDayOffset m + d - 1 = monthDayOffset m + d - 1 from rfl]
    exact doyToMonthDay_of_month m d hm1 hm2 hd1 hd31 hfeb h30
  rw [civilFromDays, hmd]
  dsimp only
  have : (if m ≤ 2 then cfdYs z + 1 else cfdYs z) = y := by
    rw [hrecYs]; split_ifs with h <;> omega
  rw [this]

theorem daysInMonth_pos (y m : Int) : 1 ≤ daysInMonth y m := by
  rw [daysInMonth_eq]; split_ifs <;> omega

theorem daysFromCivilValid_add (y m d k : Int) :
    daysFromCivilValid y m (d + k) = daysFromCivilValid y m d + k := by
  unfold daysFromCivilValid; ring

theorem daysFromCivilValid_eq_of_le_two (y m d : Int) (h : m ≤ 2) :
    daysFromCivilValid y m d =
      shiftedYearStart (y - 1) + monthDayOffset m + (d - 1) - 719468 := by
  unfold daysFromCivilValid; rw [if_pos h]

theorem daysFromCivilValid_eq_of_gt_two (y m d : Int) (h : ¬ m ≤ 2) :
    daysFromCivilValid y m d =
      shiftedYearStart y + monthDayOffset m + (d - 1) - 719468 := by
  unfold daysFromCivilValid; rw [if_neg h]

theorem succ_month_step (y m : Int) (h1 : 1 ≤ m) (h2 : m ≤ 11) :
    daysFromCivilValid y (m + 1) 1 = daysFromCivilValid y m (daysInMonth y m) + 1 := by
  obtain ⟨e1, e2, e3, e4, e5, e6, e7, e8, e9, e10, e11, e12⟩ := monthDayOffset_eval
  interval_cases m
  · rw [show (1:Int) + 1 = 2 from rfl,
      daysFromCivilValid_eq_of_le_two y 2 1 (by norm_num),
      daysFromCivilValid_eq_of_le_two y 1 _ (by norm_num), e1, e2,
      daysInMonth_ne_two y 1 (by norm_num)]
    omega
  · rw [show (2:Int) + 1 = 3 from rfl,
      daysFromCivilValid_eq_of_gt_two y 3 1 (by norm_num),
      daysFromCivilValid_eq_of_le_two y 2 _ (by norm_num), e2, e3,
      daysInMonth_eq, if_pos (show (2:Int) = 2 from rfl)]
    unfold shiftedYearStart
    split_ifs with hleap <;> omega
  · rw [show (3:Int) + 1 = 4 from rfl,
      daysFromCivilValid_eq_of_gt_two y 4 1 (by norm_num),
      daysFromCivilValid_eq_of_gt_two y 3 _ (by norm_num), e3, e4,
      daysInMonth_ne_two y 3 (by norm_num)]
    omega
  · rw [show (4:Int) + 1 = 5 from rfl,
      daysFromCivilValid_eq_of_gt_two y 5 1 (by norm_num),
      daysFromCivilValid_eq_of_gt_two y 4 _ (by norm_num), e4, e5,
      daysInMonth_ne_two y 4 (by norm_num)]
    omega
  · rw [show (5:Int) + 1 = 6 from rfl,
      daysFromCivilValid_eq_of_gt_two y 6 1 (by norm_num),
      daysFromCivilValid_eq_of_gt_two y 5 _ (by norm_num), e5, e6,
      daysInMonth_ne_two y 5 (by norm_num)]
    omega
  · rw [show (6:Int) + 1 = 7 from rfl,
      daysFromCivilValid_eq_of_gt_two y 7 1 (by norm_num),
      daysFromCivilValid_eq_of_gt_two y 6 _ (by norm_num), e6, e7,
      daysInMonth_ne_two y 6 (by norm_num)]
    omega
  · rw [show (7:Int) + 1 = 8 from rfl,
      daysFromCivilValid_eq_of_gt_two y 8 1 (by norm_num),
      daysFromCivilValid_eq_of_gt_two y 7 _ (by norm_num), e7, e8,
      daysInMonth_ne_two y 7 (by norm_num)]
    omega
  · rw [show (8:Int) + 1 = 9 from rfl,
      daysFromCivilValid_eq_of_gt_two y 9 1 (by norm_num),
      daysFromCivilValid_eq_of_gt_two y 8 _ (by norm_num), e8, e9,
      daysInMonth_ne_two y 8 (by norm_num)]
    omega
  · rw [show (9:Int) + 1 = 10 from rfl,
      daysFromCivilValid_eq_of_gt_two y 10 1 (by norm_num),
      daysFromCivilValid_eq_of_gt_two y 9 _ (by norm_num), e9, e10,
      daysInMonth_ne_two y 9 (by norm_num)]
    omega
  · rw [show (10:Int) + 1 = 11 from rfl,
      daysFromCivilValid_eq_of_gt_two y 11 1 (by norm_num),
      daysFromCivilValid_eq_of_gt_two y 10 _ (by norm_num), e10, e11,
      daysInMonth_ne_two y 10 (by norm_num)]
    omega
  · rw [show (11:Int) + 1 = 12 from rfl,
      daysFromCivilValid_eq_of_gt_two y 12 1 (by norm_num),
      daysFromCivilValid_eq_of_gt_two y 11 _ (by norm_num), e11, e12,
      daysInMonth_ne_two y 11 (by norm_num)]
    omega

theorem succ_year_step (y : Int) :
    daysFromCivilValid (y + 1) 1 1 = daysFromCivilValid y 12 31 + 1 := by
  obtain ⟨e1, e2, e3, e4, e5, e6, e7, e8, e9, e10, e11, e12⟩ := monthDayOffset_eval
  rw [daysFromCivilValid_eq_of_le_two (y + 1) 1 1 (by norm_num),
    daysFromCivilValid_eq_of_gt_two y 12 31 (by norm_num), e1, e12]
  have hy : y + 1 - 1 = y := by ring
  rw [hy]
  omega

theorem civilSucc_spec (v : DateOnly) (hv : isValidDate v.year v.month v.day) :
    isValidDate (civilSucc v).year (civilSucc v).month (civilSucc v).day ∧
    daysFromCivilValid (civilSucc v).year (civilSucc v).month (civilSucc v).day =
      daysFromCivilValid v.year v.month v.day + 1 := by
  obtain ⟨y, m, d⟩ := v
  dsimp only at hv ⊢
  obtain ⟨hm1, hm2, hd1, hd2⟩ := hv
  rw [civilSucc]
  dsimp only
  split_ifs with h1 h2
  · refine ⟨?_, ?_⟩
    · dsimp only
      exact ⟨hm1, hm2, by omega, by omega⟩
    · dsimp only
      exact daysFromCivilValid_add y m d 1
  · have hd2' : d = daysInMonth y m := by omega
    refine ⟨?_, ?_⟩
    · dsimp only
      exact ⟨by omega, by omega, by norm_num, daysInMonth_pos y (m + 1)⟩
    · dsimp only
      rw [hd2']
      exact succ_month_step y m hm1 (by omega)
  · have hm12 : m = 12 := by omega
    subst hm12
    have hdim : daysInMonth y 12 = 31 := by
      rw [daysInMonth_ne_two y 12 (by norm_num)]; norm_num
    have hd31' : d = 31 := by omega
    subst hd31'
    refine ⟨?_, ?_⟩
    · dsimp only
      refine ⟨by norm_num, by norm_num, by norm_num, ?_⟩
      rw [daysInMonth_ne_two (y + 1) 1 (by norm_num)]
      norm_num
    · dsimp only
      exact succ_year_step y

theorem daysFromCivil_eq_valid (y m d : Int) (h1 : 1 ≤ m) (h2 : m ≤ 12) :
    daysFromCivil y m d = daysFromCivilValid y m d := by
  unfold daysFromCivil
  rw [show (m - 1) / 12 = 0 by omega, show (m - 1) % 12 + 1 = m by omega, add_zero]

/-- On calendar-valid dates whose year is not in the two-digit range
remapped by `Date.UTC`, shifting by one day is exactly the civil successor. -/
theorem shiftDateOnly_one (v : DateOnly) (hv : isValidDate v.year v.month v.day)
    (hy : 100 ≤ v.year) :
    shiftDateOnly v 1 = civilSucc v := by
  obtain ⟨hm1, hm2, hd1, hd2⟩ := hv
  rw [shiftDateOnly]
  rw [jsUTCdays, fixupYearJS, if_neg (by omega),
    daysFromCivil_eq_valid v.year v.month v.day hm1 hm2,
    civilFromDays_daysFromCivilValid v.year v.month v.day ⟨hm1, hm2, hd1, hd2⟩]
  dsimp only
  rw [daysFromCivilValid_add]
  obtain ⟨hvs, heq⟩ := civilSucc_spec v ⟨hm1, hm2, hd1, hd2⟩
  rw [← heq, civilFromDays_daysFromCivilValid _ _ _ hvs]

theorem digitChar_spec (k : Int) (h1 : 0 ≤ k) (h2 : k ≤ 9) :
    (digitChar k).isDigit = true ∧ digitVal (digitChar k) = k := by
  unfold digitChar digitVal
  interval_cases k <;> exact ⟨by decide, by decide⟩

theorem shiftedYearStart_le_1968 (y : Int) (h : y ≤ 1968) :
    shiftedYearStart y ≤ 718797 := by
  unfold shiftedYearStart; omega

theorem shiftedYearStart_le_1969 (y : Int) (h : y ≤ 1969) :
    shiftedYearStart y ≤ 719162 := by
  unfold shiftedYearStart; omega

theorem shiftedYearStart_ge_9999 (y : Int) (h : 9999 ≤ y) :
    3652059 ≤ shiftedYearStart y := by
  unfold shiftedYearStart; omega

theorem shiftedYearStart_ge_10000 (y : Int) (h : 10000 ≤ y) :
    3652425 ≤ shiftedYearStart y := by
  unfold shiftedYearStart; omega

theorem year_bounds (y m d z : Int) (hv : isValidDate y m d)
    (heq : daysFromCivilValid y m d = z) (h1 : 0 ≤ z) (h2 : z ≤ 2932896) :
    1970 ≤ y ∧ y ≤ 9999 := by
  obtain ⟨hm1, hm2, hd1, hd2⟩ := hv
  have hd31 := le_trans hd2 (daysInMonth_le y m)
  obtain ⟨ho1, ho2, ho3, ho4⟩ := monthDayOffset_bounds m hm1 hm2
  unfold daysFromCivilValid at heq
  constructor
  · by_contra hy
    split_ifs at heq with hm2'
    · have := shiftedYearStart_le_1968 (y - 1) (by omega)
      omega
    · have := shiftedYearStart_le_1969 y (by omega)
      omega
  · by_contra hy
    split_ifs at heq with hm2'
    · have := shiftedYearStart_ge_9999 (y - 1) (by omega)
      omega
    · have := shiftedYearStart_ge_10000 y (by omega)
      omega

theorem jsDateParse_toIso (t : Int) (h1 : 0 ≤ t) (h2 : t ≤ 253402300799999) :
    jsDateParse (toIso t) = some t := by
  obtain ⟨hvalid, heq⟩ := civilFromDays_spec (t / 86400000)
  obtain ⟨hm1, hm2, hd1, hd2⟩ := hvalid
  have hd31 := le_trans hd2 (daysInMonth_le (civilFromDays (t / 86400000)).year
    (civilFromDays (t / 86400000)).month)
  obtain ⟨hy1970, hy9999⟩ := year_bounds _ _ _ _
    ⟨hm1, hm2, hd1, hd2⟩ heq (by omega) (by omega)
  have hdv : ∀ k : Int, 0 ≤ k → k ≤ 9 → digitVal (digitChar k) = k :=
    fun k a b => (digitChar_spec k a b).2
  rw [toIso, isoChars]
  simp only [pad4, pad2, pad3, List.cons_append, List.nil_append]
  simp only [jsDateParse]
  rw [if_pos]
  case hc =>
    repeat' apply And.intro
    all_goals first
      | trivial
      | exact (digitChar_spec _ (by omega) (by omega)).1
  rw [hdv ((civilFromDays (t / 86400000)).year / 1000 % 10) (by omega) (by omega),
    hdv ((civilFromDays (t / 86400000)).year / 100 % 10) (by omega) (by omega),
    hdv ((civilFromDays (t / 86400000)).year / 10 % 10) (by omega) (by omega),
    hdv ((civilFromDays (t / 86400000)).year % 10) (by omega) (by omega),
    hdv ((civilFromDays (t / 86400000)).month / 10 % 10) (by omega) (by omega),
    hdv ((civilFromDays (t / 86400000)).month % 10) (by omega) (by omega),
    hdv ((civilFromDays (t / 86400000)).day / 10 % 10) (by omega) (by omega),
    hdv ((civilFromDays (t / 86400000)).day % 10) (by omega) (by omega),
    hdv (t % 86400000 / 3600000 / 10 % 10) (by omega) (by omega),
    hdv (t % 86400000 / 3600000 % 10) (by omega) (by omega),
    hdv (t % 86400000 % 3600000 / 60000 / 10 % 10) (by omega) (by omega),
    hdv (t % 86400000 % 3600000 / 60000 % 10) (by omega) (by omega),
    hdv (t % 86400000 % 60000 / 1000 / 10 % 10) (by omega) (by omega),
    hdv (t % 86400000 % 60000 / 1000 % 10) (by omega) (by omega),
    hdv (t % 86400000 % 1000 / 100 % 10) (by omega) (by omega),
    hdv (t % 86400000 % 1000 / 10 % 10) (by omega) (by omega),
    hdv (t % 86400000 % 1000 % 10) (by omega) (by omega)]
  have hyr : 1000 * ((civilFromDays (t / 86400000)).year / 1000 % 10) +
      100 * ((civilFromDays (t / 86400000)).year / 100 % 10) +
      10 * ((civilFromDays (t / 86400000)).year / 10 % 10) +
      (civilFromDays (t / 86400000)).year % 10 =
      (civilFromDays (t / 86400000)).year := by omega
  have hmo : 10 * ((civilFromDays (t / 86400000)).month / 10 % 10) +
      (civilFromDays (t / 86400000)).month % 10 =
      (civilFromDays (t / 86400000)).month := by omega
  have hda : 10 * ((civilFromDays (t / 86400000)).day / 10 % 10) +
      (civilFromDays (t / 86400000)).day % 10 =
      (civilFromDays (t / 86400000)).day := by omega
  have hhh : 10 * (t % 86400000 / 3600000 / 10 % 10) + t % 86400000 / 3600000 % 10 =
      t % 86400000 / 3600000 := by omega
  have hmi : 10 * (t % 86400000 % 3600000 / 60000 / 10 % 10) +
      t % 86400000 % 3600000 / 60000 % 10 = t % 86400000 % 3600000 / 60000 := by
    omega
  have hss : 10 * (t % 86400000 % 60000 / 1000 / 10 % 10) +
      t % 86400000 % 60000 / 1000 % 10 = t % 86400000 % 60000 / 1000 := by omega
  have hms : 100 * (t % 86400000 % 1000 / 100 % 10) +
      10 * (t % 86400000 % 1000 / 10 % 10) + t % 86400000 % 1000 % 10 =
      t % 86400000 % 1000 := by omega
  rw [hyr, hmo, hda, hhh, hmi, hss, hms]
  rw [if_pos]
  case hc =>
    refine ⟨⟨hm1, hm2, hd1, hd2⟩, by omega, by omega, by omega⟩
  rw [heq]
  congr 1
  omega

theorem lookup_append_of_some (m ext : List (String × NotionEvent)) (k : String)
    (v : NotionEvent) (h : List.lookup k m = some v) :
    List.lookup k (m ++ ext) = some v := by
  induction m with
  | nil => simp [List.lookup] at h
  | cons p rest ih =>
    rw [List.cons_append, List.lookup]
    rw [List.lookup] at h
    by_cases hk : (k == p.1) = true
    · rw [hk] at h ⊢
      exact h
    · rw [Bool.not_eq_true] at hk
      rw [hk] at h ⊢
      exact ih h

theorem accumulateEvents_frame (t dp : String) (desc : Option String) (dur : Int) :
    ∀ (pages : List PageObjectResponse) (m : NotionEventMap) (k : String)
      (v : NotionEvent), NotionEventMap.lookup m k = some v →
      NotionEventMap.lookup (accumulateEvents t dp desc dur pages m).1 k = some v := by
  intro pages
  induction pages with
  | nil => intro m k v h; exact h
  | cons page rest ih =>
    intro m k v h
    rw [accumulateEvents]
    split
    · exact ih m k v h
    · split
      · exact ih _ k v (lookup_append_of_some m _ k v h)
      · exact ih m k v h

theorem accumulateEvents_append (t dp : String) (desc : Option String) (dur : Int) :
    ∀ (xs ys : List PageObjectResponse) (m : NotionEventMap),
      accumulateEvents t dp desc dur (xs ++ ys) m =
        ((accumulateEvents t dp desc dur ys
            (accumulateEvents t dp desc dur xs m).1).1,
         (accumulateEvents t dp desc dur xs m).2 ++
           (accumulateEvents t dp desc dur ys
             (accumulateEvents t dp desc dur xs m).1).2) := by
  intro xs
  induction xs with
  | nil =>
    intro ys m
    rw [List.nil_append, accumulateEvents]
    dsimp only
    rw [List.nil_append]
  | cons page rest ih =>
    intro ys m
    rw [List.cons_append, accumulateEvents, accumulateEvents]
    split
    · rw [ih]
      simp only [List.cons_append]
    · split
      · rw [ih]
      · rw [ih]
        simp only [List.cons_append]

theorem accumulateEvents_duplicate_first (t dp : String) (desc : Option String)
    (dur : Int) (page : PageObjectResponse) (rest : List PageObjectResponse)
    (m : NotionEventMap) (h : (NotionEventMap.lookup m page.id).isSome) :
    accumulateEvents t dp desc dur (page :: rest) m =
      ((accumulateEvents t dp desc dur rest m).1,
       (.duplicateEvent page.id, page) ::
         (accumulateEvents t dp desc dur rest m).2) := by
  rw [accumulateEvents, if_pos h]

theorem jsDateOf_toIso (t : Int) (h : msIsoSafe t) : jsDateOf (toIso t) = t := by
  rw [jsDateOf, jsDateParse_toIso t h.1 h.2]
  rfl

theorem rehydrateEvent_serializeEvent (ev : NotionEvent)
    (h : NotionEvent.isoSafe ev) : rehydrateEvent (serializeEvent ev) = ev := by
  cases ev with
  | timed e =>
    obtain ⟨h1, h2, h3, h4⟩ := h
    rw [serializeEvent, rehydrateEvent]
    dsimp only
    rw [jsDateOf_toIso _ h1, jsDateOf_toIso _ h2, jsDateOf_toIso _ h3,
      jsDateOf_toIso _ h4]
  | allDay e =>
    obtain ⟨h3, h4⟩ := h
    rw [serializeEvent, rehydrateEvent]
    dsimp only
    rw [jsDateOf_toIso _ h3, jsDateOf_toIso _ h4]

theorem rehydrateState_serializeState (st : NotionIncrementalState)
    (h1 : msIsoSafe st.lastFullSync) (h2 : msIsoSafe st.lastSynced)
    (hev : ∀ p ∈ st.events, NotionEvent.isoSafe p.2) :
    rehydrateState (serializeState st) = st := by
  obtain ⟨lfs, ls, evs⟩ := st
  rw [serializeState, rehydrateState]
  dsimp only at hev h1 h2 ⊢
  rw [jsDateOf_toIso _ h1, jsDateOf_toIso _ h2, List.map_map]
  have hmap : ∀ (l : List (String × NotionEvent)),
      (∀ p ∈ l, NotionEvent.isoSafe p.2) →
      l.map ((fun p => (p.1, rehydrateEvent p.2)) ∘
        (fun p => (p.1, serializeEvent p.2))) = l := by
    intro l
    induction l with
    | nil => intro _; rfl
    | cons p rest ih =>
      intro hl
      rw [List.map_cons, ih (fun q hq => hl q (List.mem_cons_of_mem p hq))]
      have := rehydrateEvent_serializeEvent p.2 (hl p (List.mem_cons_self p rest))
      simp only [Function.comp_apply, this]
  rw [hmap evs hev]

theorem fileRepoSet_get (fs : FS) (key : String) (st : NotionIncrementalState)
    (maxAge now : Int) (hw : fs.writeFails = false) (hr : fs.readFails = false)
    (hstale : maxAge = 0 ∨ now - st.lastFullSync ≤ maxAge)
    (h1 : msIsoSafe st.lastFullSync) (h2 : msIsoSafe st.lastSynced)
    (hev : ∀ p ∈ st.events, NotionEvent.isoSafe p.2) :
    (fileRepoGet maxAge now (fileRepoSet fs key st).2 key).1 = some st := by
  rw [fileRepoSet]
  rw [if_neg (by rw [hw]; exact Bool.false_ne_true)]
  rw [fileRepoGet]
  dsimp only
  rw [writeFile]
  dsimp only
  rw [show List.lookup (getCacheFilePath key)
      ((getCacheFilePath key, FileContent.doc (serializeState st)) ::
        List.filter (fun p => decide ¬ p.1 = getCacheFilePath key) fs.files) =
      some (FileContent.doc (serializeState st)) by
    rw [List.lookup]
    rw [beq_self_eq_true]
  ]
  dsimp only
  rw [hr]
  rw [if_neg (by exact Bool.false_ne_true)]
  rw [serializeState]
  dsimp only
  rw [show (some NotionIncrementalState.SchemaVersion).getD 0 =
      NotionIncrementalState.SchemaVersion from rfl]
  rw [if_neg (by intro hx; exact hx rfl)]
  rw [show (SerializedNotionIncrementalState.mk
      (some NotionIncrementalState.SchemaVersion) (toIso st.lastFullSync)
      (toIso st.lastSynced)
      (st.events.map (fun p => (p.1, serializeEvent p.2)))) =
      serializeState st from rfl]
  rw [rehydrateState_serializeState st h1 h2 hev]
  rw [if_neg (by
    intro hx
    rcases hstale with hc | hc
    · exact hx.1 hc
    · omega)]

theorem filter_notmem_le (seen : List (Option String)) (c : Option String) :
    ∀ (l : List (Option String)),
      (l.filter (fun x => decide (x ∉ seen ++ [c]))).length ≤
        (l.filter (fun x => decide (x ∉ seen))).length := by
  intro l
  induction l with
  | nil => exact Nat.le_refl 0
  | cons a rest ih =>
    rw [List.filter_cons, List.filter_cons]
    by_cases h1 : a ∉ seen ++ [c]
    · have h2 : a ∉ seen := fun hmem => h1 (List.mem_append_left _ hmem)
      rw [if_pos (by simpa using h1), if_pos (by simpa using h2)]
      simpa using Nat.succ_le_succ ih
    · rw [if_neg (by simpa using h1)]
      by_cases h2 : a ∉ seen
      · rw [if_pos (by simpa using h2)]
        exact Nat.le_succ_of_le ih
      · rw [if_neg (by simpa using h2)]
        exact ih

theorem filter_notmem_lt (seen : List (Option String)) (c : Option String)
    (hnot : c ∉ seen) :
    ∀ (l : List (Option String)), c ∈ l →
      (l.filter (fun x => decide (x ∉ seen ++ [c]))).length <
        (l.filter (fun x => decide (x ∉ seen))).length := by
  intro l
  induction l with
  | nil => intro h; cases h
  | cons a rest ih =>
    intro hc
    rw [List.filter_cons, List.filter_cons]
    by_cases hac : a = c
    · subst hac
      rw [if_neg (by simp), if_pos (by simpa using hnot)]
      exact Nat.lt_succ_of_le (filter_notmem_le seen a rest)
    · have hcrest : c ∈ rest := by
        rcases List.mem_cons.mp hc with h | h
        · exact absurd h.symm hac
        · exact h
      by_cases h1 : a ∉ seen ++ [c]
      · have h2 : a ∉ seen := fun hmem => h1 (List.mem_append_left _ hmem)
        rw [if_pos (by simpa using h1), if_pos (by simpa using h2)]
        simpa using Nat.succ_lt_succ (ih hcrest)
      · rw [if_neg (by simpa using h1)]
        by_cases h2 : a ∉ seen
        · rw [if_pos (by simpa using h2)]
          exact Nat.lt_succ_of_lt (ih hcrest)
        · rw [if_neg (by simpa using h2)]
          exact ih hcrest

theorem fetchAllPagesAux_total (w : ConvertWorld) (db : String)
    (filt : List QueryFilterCond) (ps : Int) (U : List String)
    (hU : ∀ c pages c', w.query db filt c ps = .ok ⟨pages, some c'⟩ → c' ∈ U) :
    ∀ (fuel : Nat) (seen : List (Option String)) (cursor : Option String)
      (all : List PageObjectResponse),
      cursor ∈ (none :: U.map some) →
      ((none :: U.map some).filter (fun x => decide (x ∉ seen))).length < fuel →
      (fetchAllPagesAux w db filt ps fuel seen cursor all).isSome := by
  intro fuel
  induction fuel with
  | zero => intro seen cursor all _ hlt; cases hlt
  | succ n ih =>
    intro seen cursor all hcur hlt
    rw [fetchAllPagesAux]
    by_cases hseen : cursor ∈ seen
    · rw [if_pos hseen]; rfl
    · rw [if_neg hseen]
      cases hq : w.query db filt cursor ps with
      | error e => rfl
      | ok resp =>
        cases hnext : resp.next_cursor with
        | none =>
          dsimp only
          rw [hnext]
          rfl
        | some c =>
          have hresp : resp = ⟨resp.results, some c⟩ := by
            rw [← hnext]
          have hcU : c ∈ U := hU cursor resp.results c (by
            rw [hq]; exact congrArg Except.ok hresp)
          have hc : some c ∈ (none :: U.map some) :=
            List.mem_cons_of_mem none (List.mem_map_of_mem some hcU)
          have hm := filter_notmem_lt seen cursor hseen (none :: U.map some) hcur
          have hrec := ih (seen ++ [cursor]) (some c) (all ++ resp.results) hc
            (by omega)
          dsimp only
          rw [hnext]
          dsimp only
          cases hres : fetchAllPagesAux w db filt ps n (seen ++ [cursor]) (some c)
              (all ++ resp.results) with
          | none => rw [hres] at hrec; cases hrec
          | some out =>
            cases out
            rfl

theorem convertCore_pagination_no_set (w : ConvertWorld) (ps : Int) (fuel : Nat)
    (now : Int) (db t dp cal : String) (desc : Option String) (dur : Int)
    (f u : Option Int) (effs : List ConvertEffect) (c : Option String)
    (h : convertCore w ps fuel now db t dp desc cal dur f u =
      some (Except.error (ConvertError.pagination c), effs))
    (k : String) (st : NotionIncrementalState) :
    ConvertEffect.storageSet k st ∉ effs := by
  unfold convertCore at h
  dsimp only at h
  cases hsto : w.incrementalUpdateStorage with
  | none =>
    rw [hsto] at h
    dsimp only at h
    simp only [Option.map_none', Option.getD_none] at h
    cases hf : fetchAllPages w db dp f u none ps fuel with
    | none =>
      rw [hf] at h
      dsimp only at h
      exact Option.noConfusion h
    | some out =>
      obtain ⟨outcome, qs⟩ := out
      rw [hf] at h
      cases outcome with
      | paginationError c2 =>
        dsimp only at h
        simp only [Option.some.injEq, Prod.mk.injEq] at h
        rw [← h.2]
        simp
      | queryError =>
        dsimp only at h
        simp at h
      | ok pages =>
        dsimp only at h
        cases hcal : (buildCalendar w.createEvents
            (accumulateEvents t dp desc dur pages []).1 cal).value with
        | none =>
          rw [hcal] at h
          dsimp only at h
          simp at h
        | some text =>
          rw [hcal] at h
          dsimp only at h
          simp at h
  | some repo =>
    rw [hsto] at h
    dsimp only at h
    cases hget : repo.get (getCacheKeyInput db t dp desc cal dur f u) with
    | error e =>
      rw [hget] at h
      dsimp only at h
      simp at h
    | ok stq =>
      rw [hget] at h
      dsimp only at h
      cases hf : fetchAllPages w db dp f u
          (Option.map (fun x => x.lastSynced) stq) ps fuel with
      | none =>
        rw [hf] at h
        dsimp only at h
        exact Option.noConfusion h
      | some out =>
        obtain ⟨outcome, qs⟩ := out
        rw [hf] at h
        cases outcome with
        | paginationError c2 =>
          dsimp only at h
          simp only [Option.some.injEq, Prod.mk.injEq] at h
          rw [← h.2]
          simp
        | queryError =>
          dsimp only at h
          simp at h
        | ok pages =>
          dsimp only at h
          cases hset : repo.set (getCacheKeyInput db t dp desc cal dur f u)
              ⟨now, (Option.map (fun x => x.lastFullSync) stq).getD now,
                (accumulateEvents t dp desc dur pages
                  ((Option.map (fun x => x.events) stq).getD [])).1⟩ with
          | error e2 =>
            rw [hset] at h
            dsimp only at h
            simp at h
          | ok unitv =>
            rw [hset] at h
            dsimp only at h
            cases hcal : (buildCalendar w.createEvents
                (accumulateEvents t dp desc dur pages
                  ((Option.map (fun x => x.events) stq).getD [])).1 cal).value with
            | none =>
              rw [hcal] at h
              dsimp only at h
              simp at h
            | some text =>
              rw [hcal] at h
              dsimp only at h
              simp at h

theorem intercalate8 (a b c d e f g h : String) :
    String.intercalate "-" [a, b, c, d, e, f, g, h] =
      a ++ "-" ++ b ++ "-" ++ c ++ "-" ++ d ++ "-" ++ e ++ "-" ++ f ++ "-" ++ g ++
        "-" ++ h := rfl

theorem intercalate8_data (a b c d e f g h : String) :
    (String.intercalate "-" [a, b, c, d, e, f, g, h]).data =
      a.data ++ ('-' :: (b.data ++ ('-' :: (c.data ++ ('-' :: (d.data ++ ('-' ::
        (e.data ++ ('-' :: (f.data ++ ('-' :: (g.data ++ ('-' :: h.data))))))))))))) := by
  rw [intercalate8]
  simp [String.data_append]

theorem peelDash {A R1 R2 : List Char} (h : A ++ ('-' :: R1) = A ++ ('-' :: R2)) :
    R1 = R2 :=
  (List.cons.inj (List.append_cancel_left h)).2

theorem strext {s t : String} (h : s.data = t.data) : s = t := by
  cases s
  cases t
  exact congrArg String.mk h

/-- The digest input in raw character form: the eight joined components. -/
theorem getCacheKeyInput_data (db t dp : String) (desc : Option String)
    (cal : String) (dur : Int) (f u : Option Int) :
    (getCacheKeyInput db t dp desc cal dur f u).data =
      db.data ++ ('-' :: (t.data ++ ('-' :: (dp.data ++ ('-' :: ((desc.getD "").data ++
        ('-' :: (cal.data ++ ('-' :: ((toString dur).data ++
        ('-' :: (((f.map toIso).getD "").data ++
        ('-' :: ((u.map toIso).getD "").data))))))))))))) := by
  rw [getCacheKeyInput]
  exact intercalate8_data db t dp (desc.getD "") cal (toString dur)
    ((f.map toIso).getD "") ((u.map toIso).getD "")

theorem toIso_data_len (t : Int) : (toIso t).data.length = 24 := by
  show (isoChars t).length = 24
  simp [isoChars, pad4, pad2, pad3]

theorem toIso_inj (t1 t2 : Int) (h1 : msIsoSafe t1) (h2 : msIsoSafe t2)
    (h : toIso t1 = toIso t2) : t1 = t2 := by
  have e1 := jsDateParse_toIso t1 h1.1 h1.2
  rw [h, jsDateParse_toIso t2 h2.1 h2.2] at e1
  exact (Option.some.inj e1).symm

theorem isoOptGetD_inj (f f' : Option Int)
    (hf : ∀ x, f = some x → msIsoSafe x) (hf' : ∀ x, f' = some x → msIsoSafe x)
    (h : (f.map toIso).getD "" = (f'.map toIso).getD "") : f = f' := by
  cases f with
  | none =>
    cases f' with
    | none => rfl
    | some y =>
      exfalso
      simp only [Option.map_none', Option.getD_none, Option.map_some',
        Option.getD_some] at h
      have hl := congrArg (fun s : String => s.data.length) h
      dsimp only at hl
      rw [toIso_data_len y] at hl
      exact absurd hl (by decide)
  | some x =>
    cases f' with
    | none =>
      exfalso
      simp only [Option.map_none', Option.getD_none, Option.map_some',
        Option.getD_some] at h
      have hl := congrArg (fun s : String => s.data.length) h
      dsimp only at hl
      rw [toIso_data_len x] at hl
      exact absurd hl (by decide)
    | some y =>
      simp only [Option.map_some', Option.getD_some] at h
      rw [toIso_inj x y (hf x rfl) (hf' y rfl) h]

theorem jsUTCms_eq_valid (y m d : Int) (h1 : 1 ≤ m) (h2 : m ≤ 12)
    (hy : 100 ≤ y) :
    jsUTCms y m d = 86400000 * daysFromCivilValid y m d := by
  rw [jsUTCms, jsUTCdays, fixupYearJS, if_neg (by omega),
    daysFromCivil_eq_valid y m d h1 h2]

theorem convert_pagination_no_set (w : ConvertWorld) (ps : Int) (fuel : Nat)
    (now : Int) (db t dp cal : String) (desc : Option String) (dur : Int)
    (f u : Option Int) (effs : List ConvertEffect) (c : Option String)
    (h : convert w ps fuel now db t dp desc cal dur f u =
      some (Except.error (ConvertError.pagination c), effs))
    (k : String) (st : NotionIncrementalState) :
    ConvertEffect.storageSet k st ∉ effs := by
  unfold convert at h
  cases f with
  | none =>
    dsimp only at h
    exact convertCore_pagination_no_set w ps fuel now db t dp cal desc dur
      none u effs c h k st
  | some fv =>
    cases u with
    | none =>
      dsimp only at h
      exact convertCore_pagination_no_set w ps fuel now db t dp cal desc dur
        (some fv) none effs c h k st
    | some uv =>
      dsimp only at h
      by_cases hlt : uv < fv
      · rw [if_pos (decide_eq_true hlt)] at h
        simp at h
      · rw [if_neg (by simpa using hlt)] at h
        exact convertCore_pagination_no_set w ps fuel now db t dp cal desc dur
          (some fv) (some uv) effs c h k st

theorem convertCore_get_error (w : ConvertWorld) (ps : Int) (fuel : Nat)
    (now : Int) (db t dp cal : String) (desc : Option String) (dur : Int)
    (f u : Option Int) (repo : StorageRepo) (e : Unit)
    (hsto : w.incrementalUpdateStorage = some repo)
    (hget : repo.get (getCacheKeyInput db t dp desc cal dur f u) = .error e) :
    convertCore w ps fuel now db t dp desc cal dur f u =
      some (.error .storage,
        [ConvertEffect.storageGet (getCacheKeyInput db t dp desc cal dur f u)]) := by
  unfold convertCore
  dsimp only
  rw [hsto]
  dsimp only
  rw [hget]

theorem convertCore_set_error (w : ConvertWorld) (ps : Int) (fuel : Nat)
    (now : Int) (db t dp cal : String) (desc : Option String) (dur : Int)
    (f u : Option Int) (repo : StorageRepo)
    (stq : Option NotionIncrementalState) (pages : List PageObjectResponse)
    (qs : List (Option String))
    (hsto : w.incrementalUpdateStorage = some repo)
    (hget : repo.get (getCacheKeyInput db t dp desc cal dur f u) = .ok stq)
    (hf : fetchAllPages w db dp f u (Option.map (fun x => x.lastSynced) stq)
      ps fuel = some (.ok pages, qs))
    (hset : ∀ key s, repo.set key s = .error ()) :
    ∃ saved, convertCore w ps fuel now db t dp desc cal dur f u =
      some (.error .storage,
        [ConvertEffect.storageGet (getCacheKeyInput db t dp desc cal dur f u)] ++
          qs.map ConvertEffect.queried ++
          [ConvertEffect.storageSet (getCacheKeyInput db t dp desc cal dur f u)
            saved]) := by
  refine ⟨⟨now, (Option.map (fun x => x.lastFullSync) stq).getD now,
    (accumulateEvents t dp desc dur pages
      ((Option.map (fun x => x.events) stq).getD [])).1⟩, ?_⟩
  unfold convertCore
  dsimp only
  rw [hsto]
  dsimp only
  rw [hget]
  dsimp only
  rw [hf]
  dsimp only
  rw [hset]

theorem fileRepoSet_always_ok (fs : FS) (key : String)
    (st : NotionIncrementalState) : (fileRepoSet fs key st).1 = .ok () := by
  unfold fileRepoSet
  split
  · rfl
  · rfl

theorem fileRepoGet_readFails (maxAge now : Int) (fs : FS) (key : String)
    (content : FileContent)
    (hlk : fs.files.lookup (getCacheFilePath key) = some content)
    (hr : fs.readFails = true) :
    fileRepoGet maxAge now fs key = (none, fs) := by
  unfold fileRepoGet
  dsimp only
  rw [hlk]
  dsimp only
  rw [hr]
  rw [if_pos rfl]

theorem fileRepoGet_version_mismatch (maxAge now : Int) (fs : FS) (key : String)
    (d : SerializedNotionIncrementalState)
    (hlk : fs.files.lookup (getCacheFilePath key) = some (.doc d))
    (hr : fs.readFails = false)
    (hv : d.cacheSchemaVersion.getD 0 ≠ NotionIncrementalState.SchemaVersion) :
    fileRepoGet maxAge now fs key =
      (none, removeFile fs (getCacheFilePath key)) := by
  unfold fileRepoGet
  dsimp only
  rw [hlk]
  dsimp only
  rw [hr]
  rw [if_neg (by exact Bool.false_ne_true)]
  rw [if_pos hv]

theorem fileRepoGet_garbage (maxAge now : Int) (fs : FS) (key : String)
    (hlk : fs.files.lookup (getCacheFilePath key) = some .garbage) :
    fileRepoGet maxAge now fs key = (none, fs) := by
  unfold fileRepoGet
  dsimp only
  rw [hlk]
  dsimp only
  by_cases hr : fs.readFails = true
  · rw [hr]
    rw [if_pos rfl]
  · rw [Bool.not_eq_true] at hr
    rw [hr]
    rw [if_neg (by exact Bool.false_ne_true)]

/-- Claim C3 (amended): for a calendar-valid all-day start whose year is
outside the two-digit range remapped by `Date.UTC`, a missing or empty end
value yields the civil successor of the start as exclusive end; a parsed
inclusive end (equally valid, year ≥ 100) before the start fails with a
date-value error, and one on or after the start yields the civil successor
of the end. -/
theorem allDayExclusiveEnd_spec (start : DateOnly) (pageId : String)
    (hv : isValidDate start.year start.month start.day) (hy : 100 ≤ start.year) :
    getExclusiveAllDayEnd start none pageId = .ok (civilSucc start) ∧
    getExclusiveAllDayEnd start (some "") pageId = .ok (civilSucc start) ∧
    ∀ e endD, parseDateOnly e pageId = .ok endD →
      isValidDate endD.year endD.month endD.day → 100 ≤ endD.year →
      (daysFromCivilValid endD.year endD.month endD.day <
          daysFromCivilValid start.year start.month start.day →
        getExclusiveAllDayEnd start (some e) pageId =
          .error (.dateValue pageId)) ∧
      (daysFromCivilValid start.year start.month start.day ≤
          daysFromCivilValid endD.year endD.month endD.day →
        getExclusiveAllDayEnd start (some e) pageId = .ok (civilSucc endD)) := by
  refine ⟨?_, ?_, ?_⟩
  · show Except.ok (shiftDateOnly start 1) = Except.ok (civilSucc start)
    rw [shiftDateOnly_one start hv hy]
  · show Except.ok (shiftDateOnly start 1) = Except.ok (civilSucc start)
    rw [shiftDateOnly_one start hv hy]
  · intro e endD hp hv2 hy2
    have hne : ¬ e = "" := by
      intro he
      rw [he] at hp
      exact Except.noConfusion hp
    have hms : jsUTCms endD.year endD.month endD.day =
        86400000 * daysFromCivilValid endD.year endD.month endD.day :=
      jsUTCms_eq_valid _ _ _ hv2.1 hv2.2.1 hy2
    have hms2 : jsUTCms start.year start.month start.day =
        86400000 * daysFromCivilValid start.year start.month start.day :=
      jsUTCms_eq_valid _ _ _ hv.1 hv.2.1 hy
    constructor
    · intro hlt
      unfold getExclusiveAllDayEnd
      dsimp only
      rw [if_neg hne, hp]
      dsimp only
      rw [if_pos (by rw [hms, hms2]; omega)]
    · intro hge
      unfold getExclusiveAllDayEnd
      dsimp only
      rw [if_neg hne, hp]
      dsimp only
      rw [if_neg (by rw [hms, hms2]; omega)]
      rw [shiftDateOnly_one endD hv2 hy2]

theorem allDayExclusiveEnd_spec_leap :
    getExclusiveAllDayEnd ⟨2024, 2, 29⟩ none "p" = .ok (civilSucc ⟨2024, 2, 29⟩) ∧
    civilSucc (⟨2024, 2, 29⟩ : DateOnly) = ⟨2024, 3, 1⟩ :=
  ⟨(allDayExclusiveEnd_spec ⟨2024, 2, 29⟩ "p" (by decide) (by decide)).1, by decide⟩

theorem allDay_twoDigitYear_collapse :
    parseDateOnly "0050-01-01" "p" = .ok ⟨50, 1, 1⟩ ∧
    getExclusiveAllDayEnd ⟨50, 1, 1⟩ none "p" = .ok ⟨1950, 1, 2⟩ ∧
    (⟨1950, 1, 2⟩ : DateOnly) ≠ ⟨50, 1, 2⟩ := by decide

/-- Claim C2: when a fetched record's identifier is already bound in the
working map at the moment it is processed, a duplicate-event error for that
record is routed to the error list, the prior binding of the identifier
survives unchanged, and the resulting map is exactly the map obtained
without that record: nothing is overwritten or removed. -/
theorem duplicate_preserves_existing (t dp : String) (desc : Option String)
    (dur : Int) (xs rest : List PageObjectResponse) (page : PageObjectResponse)
    (m : NotionEventMap) (v : NotionEvent)
    (h : NotionEventMap.lookup (accumulateEvents t dp desc dur xs m).1 page.id =
      some v) :
    (NotionError.duplicateEvent page.id, page) ∈
        (accumulateEvents t dp desc dur (xs ++ page :: rest) m).2 ∧
    NotionEventMap.lookup
        (accumulateEvents t dp desc dur (xs ++ page :: rest) m).1 page.id =
      some v ∧
    (accumulateEvents t dp desc dur (xs ++ page :: rest) m).1 =
      (accumulateEvents t dp desc dur (xs ++ rest) m).1 := by
  have hsome : (NotionEventMap.lookup (accumulateEvents t dp desc dur xs m).1
      page.id).isSome := by rw [h]; rfl
  have hdup := accumulateEvents_duplicate_first t dp desc dur page rest
    (accumulateEvents t dp desc dur xs m).1 hsome
  refine ⟨?_, ?_, ?_⟩
  · rw [accumulateEvents_append]
    dsimp only
    rw [hdup]
    dsimp only
    exact List.mem_append_right _ (List.mem_cons_self _ _)
  · rw [accumulateEvents_append]
    dsimp only
    rw [hdup]
    dsimp only
    exact accumulateEvents_frame t dp desc dur rest _ page.id v h
  · rw [accumulateEvents_append, accumulateEvents_append]
    dsimp only
    rw [hdup]

theorem duplicate_preserves_existing_concrete :
    (NotionError.duplicateEvent pageC2.id, pageC2) ∈
        (accumulateEvents "T" "D" none 0 ([] ++ pageC2 :: []) [("a", evC2)]).2 ∧
    NotionEventMap.lookup
        (accumulateEvents "T" "D" none 0 ([] ++ pageC2 :: []) [("a", evC2)]).1
        pageC2.id = some evC2 ∧
    (accumulateEvents "T" "D" none 0 ([] ++ pageC2 :: []) [("a", evC2)]).1 =
      (accumulateEvents "T" "D" none 0 ([] ++ []) [("a", evC2)]).1 :=
  duplicate_preserves_existing "T" "D" none 0 [] [] pageC2 [("a", evC2)] evC2
    (by decide)

/-- Claim C4: with both bounds given and `fromDate` after `untilDate`, the
run fails immediately with the invalid-argument error and an empty effect
list: no query, no storage access, no output. -/
theorem badRange_rejected_before_io (w : ConvertWorld) (ps : Int) (fuel : Nat)
    (now : Int) (db t dp cal : String) (desc : Option String) (dur : Int)
    (f u : Int) (h : u < f) :
    convert w ps fuel now db t dp desc cal dur (some f) (some u) =
      some (.error (.invalidArgument "fromDate"), []) := by
  unfold convert
  dsimp only
  rw [if_pos (decide_eq_true h)]

theorem badRange_rejected_concrete :
    convert wTriv 100 1 0 "db" "T" "D" none "C" 0 (some 5) (some 3) =
      some (.error (.invalidArgument "fromDate"), []) :=
  badRange_rejected_before_io wTriv 100 1 0 "db" "T" "D" "C" none 0 5 3
    (by decide)

/-- Claim C10: the constructor's falsy `||` default turns an explicit
`pageSize` of `0` into the default `100` instead of rejecting it; only a
strictly negative `pageSize` reaches the invalid-argument error, and a
positive one is kept as given. -/
theorem pageSize_falsy_default :
    constructorPageSize (some 0) = .ok 100 ∧
    constructorPageSize none = .ok 100 ∧
    (∀ n : Int, n < 0 →
      constructorPageSize (some n) = .error (.invalidArgument "pageSize")) ∧
    (∀ n : Int, 0 < n → constructorPageSize (some n) = .ok n) := by
  refine ⟨rfl, rfl, ?_, ?_⟩
  · intro n hn
    unfold constructorPageSize
    dsimp only
    rw [if_neg (by omega : ¬ n = 0)]
    rw [if_pos (by omega : n ≤ 0)]
  · intro n hn
    unfold constructorPageSize
    dsimp only
    rw [if_neg (by omega : ¬ n = 0)]
    rw [if_neg (by omega : ¬ n ≤ 0)]

theorem pageSize_negative_rejected :
    constructorPageSize (some (-5)) = .error (.invalidArgument "pageSize") :=
  pageSize_falsy_default.2.2.1 (-5) (by decide)

/-- Claim C1: an incremental re-run against a cached state re-fetches the
modified record `p1` (its title changed to "New"), yet the state it persists
still binds `p1` to the stale prior event: the re-fetched record is dropped
as a duplicate of its own previous entry instead of replacing it, even
though extraction of the modified record succeeds and yields a different
event. -/
theorem stale_event_persisted_on_refetch :
    convert worldC1 100 2 10 "db" "T" "D" none "C" 3600000 none none =
      some (.ok "ICS",
        [.storageGet (getCacheKeyInput "db" "T" "D" none "C" 3600000 none none),
         .queried none,
         .storageSet (getCacheKeyInput "db" "T" "D" none "C" 3600000 none none)
           ⟨10, 0, [("p1", oldEventC1)]⟩]) ∧
    extractEventDetails "T" "D" none 3600000 newPageC1 =
      .ok (.timed ⟨"p1", "New", 86400000, 90000000, "", 0, 99⟩) ∧
    (NotionEvent.timed ⟨"p1", "New", 86400000, 90000000, "", 0, 99⟩) ≠
      oldEventC1 := by decide

/-- Claim C5: the pagination walk tracks the consumed cursors (the initial
no-cursor state included) and aborts with a pagination error on the first
repeat; a run that ends in a pagination error has performed no storage
write; and the walk returns a result whenever the source draws its cursors
from a finite set and the fuel exceeds the number of unconsumed cursors. -/
theorem pagination_cycle_guard :
    (∀ (w : ConvertWorld) (db : String) (filt : List QueryFilterCond)
       (ps : Int) (fuel : Nat) (seen : List (Option String))
       (cursor : Option String) (all : List PageObjectResponse),
      cursor ∈ seen →
      fetchAllPagesAux w db filt ps (fuel + 1) seen cursor all =
        some (.paginationError cursor, [])) ∧
    (∀ (w : ConvertWorld) (ps : Int) (fuel : Nat) (now : Int)
       (db t dp cal : String) (desc : Option String) (dur : Int)
       (f u : Option Int) (effs : List ConvertEffect) (c : Option String),
      convert w ps fuel now db t dp desc cal dur f u =
        some (Except.error (ConvertError.pagination c), effs) →
      ∀ (k : String) (st : NotionIncrementalState),
        ConvertEffect.storageSet k st ∉ effs) ∧
    (∀ (w : ConvertWorld) (db : String) (filt : List QueryFilterCond)
       (ps : Int) (U : List String),
      (∀ c pages c', w.query db filt c ps = .ok ⟨pages, some c'⟩ → c' ∈ U) →
      ∀ (fuel : Nat) (seen : List (Option String)) (cursor : Option String)
        (all : List PageObjectResponse),
        cursor ∈ (none :: U.map some) →
        ((none :: U.map some).filter (fun x => decide (x ∉ seen))).length < fuel →
        (fetchAllPagesAux w db filt ps fuel seen cursor all).isSome) := by
  refine ⟨?_, ?_, fetchAllPagesAux_total⟩
  · intro w db filt ps fuel seen cursor all hmem
    rw [fetchAllPagesAux]
    rw [if_pos hmem]
  · intro w ps fuel now db t dp cal desc dur f u effs c h k st
    exact convert_pagination_no_set w ps fuel now db t dp cal desc dur f u
      effs c h k st

theorem pagination_cycle_guard_concrete :
    fetchAllPagesAux wCyc "db" [] 100 3 [none] none [] =
      some (.paginationError none, []) :=
  pagination_cycle_guard.1 wCyc "db" [] 100 2 [none] none [] (by decide)

/-- Claim C6 (amended): at the core, a failing storage `get` aborts the run
with the storage error (it is not treated as absent state), and a failing
`set` surfaces the same storage error after the fetch completes; the bundled
file backend itself never rejects: its `set` swallows write failures and
resolves normally, and its `get` swallows read failures, returning absent
state with the file untouched. -/
theorem storage_failure_surfacing :
    (∀ (w : ConvertWorld) (ps : Int) (fuel : Nat) (now : Int)
       (db t dp cal : String) (desc : Option String) (dur : Int)
       (f u : Option Int) (repo : StorageRepo) (e : Unit),
      w.incrementalUpdateStorage = some repo →
      repo.get (getCacheKeyInput db t dp desc cal dur f u) = .error e →
      convertCore w ps fuel now db t dp desc cal dur f u =
        some (.error .storage,
          [ConvertEffect.storageGet
            (getCacheKeyInput db t dp desc cal dur f u)])) ∧
    (∀ (w : ConvertWorld) (ps : Int) (fuel : Nat) (now : Int)
       (db t dp cal : String) (desc : Option String) (dur : Int)
       (f u : Option Int) (repo : StorageRepo)
       (stq : Option NotionIncrementalState) (pages : List PageObjectResponse)
       (qs : List (Option String)),
      w.incrementalUpdateStorage = some repo →
      repo.get (getCacheKeyInput db t dp desc cal dur f u) = .ok stq →
      fetchAllPages w db dp f u (Option.map (fun x => x.lastSynced) stq)
        ps fuel = some (.ok pages, qs) →
      (∀ key s, repo.set key s = .error ()) →
      ∃ saved, convertCore w ps fuel now db t dp desc cal dur f u =
        some (.error .storage,
          [ConvertEffect.storageGet (getCacheKeyInput db t dp desc cal dur f u)] ++
            qs.map ConvertEffect.queried ++
            [ConvertEffect.storageSet (getCacheKeyInput db t dp desc cal dur f u)
              saved])) ∧
    (∀ (fs : FS) (key : String) (st : NotionIncrementalState),
      (fileRepoSet fs key st).1 = .ok ()) ∧
    (∀ (maxAge now : Int) (fs : FS) (key : String) (content : FileContent),
      fs.files.lookup (getCacheFilePath key) = some content →
      fs.readFails = true →
      fileRepoGet maxAge now fs key = (none, fs)) :=
  ⟨convertCore_get_error, convertCore_set_error, fileRepoSet_always_ok,
    fileRepoGet_readFails⟩

theorem storage_failure_surfacing_concrete :
    convertCore wFailC6 100 1 0 "db" "T" "D" none "C" 0 none none =
      some (.error .storage,
        [ConvertEffect.storageGet
          (getCacheKeyInput "db" "T" "D" none "C" 0 none none)]) :=
  storage_failure_surfacing.1 wFailC6 100 1 0 "db" "T" "D" "C" none 0 none none
    repoFailC6 () rfl rfl

theorem storage_set_failure_swallowed :
    fileRepoSet fsWriteFail "k" ⟨0, 0, []⟩ = (.ok (), fsWriteFail) ∧
    (fileRepoGet 0 0 (fileRepoSet fsWriteFail "k" ⟨0, 0, []⟩).2 "k").1 =
      none := by decide

/-- Claim C7 (amended): a snapshot whose schema version differs from the
current one is treated as absent and its file is deleted as a side effect;
an unparsable document is likewise treated as absent, but its file is
retained, not deleted. -/
theorem schema_mismatch_discards :
    (∀ (maxAge now : Int) (fs : FS) (key : String)
       (d : SerializedNotionIncrementalState),
      fs.files.lookup (getCacheFilePath key) = some (.doc d) →
      fs.readFails = false →
      d.cacheSchemaVersion.getD 0 ≠ NotionIncrementalState.SchemaVersion →
      fileRepoGet maxAge now fs key =
        (none, removeFile fs (getCacheFilePath key))) ∧
    (∀ (maxAge now : Int) (fs : FS) (key : String),
      fs.files.lookup (getCacheFilePath key) = some .garbage →
      fileRepoGet maxAge now fs key = (none, fs)) :=
  ⟨fileRepoGet_version_mismatch, fileRepoGet_garbage⟩

theorem garbage_file_retained :
    fileRepoGet 0 0 fsGarbageC7 "k" = (none, fsGarbageC7) ∧
    fsGarbageC7.files.lookup "k.json" = some .garbage := by decide

theorem schema_mismatch_discards_concrete :
    fileRepoGet 0 0 fsOldVerC7 "k" =
      (none, removeFile fsOldVerC7 (getCacheFilePath "k")) :=
  schema_mismatch_discards.1 0 0 fsOldVerC7 "k" ⟨some 0, "x", "y", []⟩ rfl rfl
    (by decide)

/-- Claim C8: persisting a state holding at least one timed and one all-day
event through the file backend's `set` and loading it back through `get`
(current schema, not stale, no file-system failure, instants in the
ISO-renderable range) returns a state equal to the original, field for
field, events included. -/
theorem state_roundtrip_deep_equal (fs : FS) (key : String)
    (st : NotionIncrementalState) (maxAge now : Int)
    (hT : ∃ p ∈ st.events, NotionEvent.isTimed p.2 = true)
    (hA : ∃ p ∈ st.events, NotionEvent.isTimed p.2 = false)
    (hw : fs.writeFails = false) (hr : fs.readFails = false)
    (hstale : maxAge = 0 ∨ now - st.lastFullSync ≤ maxAge)
    (h1 : msIsoSafe st.lastFullSync) (h2 : msIsoSafe st.lastSynced)
    (hev : ∀ p ∈ st.events, NotionEvent.isoSafe p.2) :
    (fileRepoGet maxAge now (fileRepoSet fs key st).2 key).1 = some st :=
  fileRepoSet_get fs key st maxAge now hw hr hstale h1 h2 hev

theorem state_roundtrip_concrete :
    (fileRepoGet 0 0 (fileRepoSet ⟨[], false, false⟩ "k" stC8).2 "k").1 =
      some stC8 :=
  state_roundtrip_deep_equal ⟨[], false, false⟩ "k" stC8 0 0 (by decide)
    (by decide) rfl rfl (Or.inl rfl) (by decide) (by decide) (by decide)

/-- Claim C9 (amended): the cache digest input is deterministic, and with
all other parameters held fixed it pins down each parameter separately,
with two caveats the source imposes: the optional description field name
enters only through its empty-string default (omitting it collides with
supplying the empty name), and the default duration enters through its
decimal rendering; the optional bounds are recovered exactly when their
instants lie in the ISO-renderable range. -/
theorem cache_key_sensitivity :
    (∀ (db t dp : String) (desc : Option String) (cal : String) (dur : Int)
       (f u : Option Int) (db2 t2 dp2 : String) (desc2 : Option String)
       (cal2 : String) (dur2 : Int) (f2 u2 : Option Int),
      db = db2 → t = t2 → dp = dp2 → desc = desc2 → cal = cal2 → dur = dur2 →
      f = f2 → u = u2 →
      getCacheKeyInput db t dp desc cal dur f u =
        getCacheKeyInput db2 t2 dp2 desc2 cal2 dur2 f2 u2) ∧
    (∀ (db db2 t dp : String) (desc : Option String) (cal : String) (dur : Int)
       (f u : Option Int),
      getCacheKeyInput db t dp desc cal dur f u =
        getCacheKeyInput db2 t dp desc cal dur f u → db = db2) ∧
    (∀ (db t t2 dp : String) (desc : Option String) (cal : String) (dur : Int)
       (f u : Option Int),
      getCacheKeyInput db t dp desc cal dur f u =
        getCacheKeyInput db t2 dp desc cal dur f u → t = t2) ∧
    (∀ (db t dp dp2 : String) (desc : Option String) (cal : String) (dur : Int)
       (f u : Option Int),
      getCacheKeyInput db t dp desc cal dur f u =
        getCacheKeyInput db t dp2 desc cal dur f u → dp = dp2) ∧
    (∀ (db t dp : String) (desc desc2 : Option String) (cal : String)
       (dur : Int) (f u : Option Int),
      getCacheKeyInput db t dp desc cal dur f u =
        getCacheKeyInput db t dp desc2 cal dur f u →
      desc.getD "" = desc2.getD "") ∧
    (∀ (db t dp : String) (desc : Option String) (cal cal2 : String)
       (dur : Int) (f u : Option Int),
      getCacheKeyInput db t dp desc cal dur f u =
        getCacheKeyInput db t dp desc cal2 dur f u → cal = cal2) ∧
    (∀ (db t dp : String) (desc : Option String) (cal : String)
       (dur dur2 : Int) (f u : Option Int),
      getCacheKeyInput db t dp desc cal dur f u =
        getCacheKeyInput db t dp desc cal dur2 f u →
      toString dur = toString dur2) ∧
    (∀ (db t dp : String) (desc : Option String) (cal : String) (dur : Int)
       (f f2 u : Option Int),
      (∀ x, f = some x → msIsoSafe x) → (∀ x, f2 = some x → msIsoSafe x) →
      getCacheKeyInput db t dp desc cal dur f u =
        getCacheKeyInput db t dp desc cal dur f2 u → f = f2) ∧
    (∀ (db t dp : String) (desc : Option String) (cal : String) (dur : Int)
       (f u u2 : Option Int),
      (∀ x, u = some x → msIsoSafe x) → (∀ x, u2 = some x → msIsoSafe x) →
      getCacheKeyInput db t dp desc cal dur f u =
        getCacheKeyInput db t dp desc cal dur f u2 → u = u2) := by
  refine ⟨?_, ?_, ?_, ?_, ?_, ?_, ?_, ?_, ?_⟩
  · intro db t dp desc cal dur f u db2 t2 dp2 desc2 cal2 dur2 f2 u2
      h1 h2 h3 h4 h5 h6 h7 h8
    rw [h1, h2, h3, h4, h5, h6, h7, h8]
  · intro db db2 t dp desc cal dur f u hk
    have hd := congrArg String.data hk
    rw [getCacheKeyInput_data, getCacheKeyInput_data] at hd
    exact strext (List.append_cancel_right hd)
  · intro db t t2 dp desc cal dur f u hk
    have hd := congrArg String.data hk
    rw [getCacheKeyInput_data, getCacheKeyInput_data] at hd
    exact strext (List.append_cancel_right (peelDash hd))
  · intro db t dp dp2 desc cal dur f u hk
    have hd := congrArg String.data hk
    rw [getCacheKeyInput_data, getCacheKeyInput_data] at hd
    exact strext (List.append_cancel_right (peelDash (peelDash hd)))
  · intro db t dp desc desc2 cal dur f u hk
    have hd := congrArg String.data hk
    rw [getCacheKeyInput_data, getCacheKeyInput_data] at hd
    exact strext (List.append_cancel_right (peelDash (peelDash (peelDash hd))))
  · intro db t dp desc cal cal2 dur f u hk
    have hd := congrArg String.data hk
    rw [getCacheKeyInput_data, getCacheKeyInput_data] at hd
    exact strext (List.append_cancel_right (peelDash (peelDash (peelDash
      (peelDash hd)))))
  · intro db t dp desc cal dur dur2 f u hk
    have hd := congrArg String.data hk
    rw [getCacheKeyInput_data, getCacheKeyInput_data] at hd
    exact strext (List.append_cancel_right (peelDash (peelDash (peelDash
      (peelDash (peelDash hd))))))
  · intro db t dp desc cal dur f f2 u hf hf2 hk
    have hd := congrArg String.data hk
    rw [getCacheKeyInput_data, getCacheKeyInput_data] at hd
    exact isoOptGetD_inj f f2 hf hf2 (strext (List.append_cancel_right
      (peelDash (peelDash (peelDash (peelDash (peelDash (peelDash hd))))))))
  · intro db t dp desc cal dur f u u2 hu hu2 hk
    have hd := congrArg String.data hk
    rw [getCacheKeyInput_data, getCacheKeyInput_data] at hd
    exact isoOptGetD_inj u u2 hu hu2 (strext (peelDash (peelDash (peelDash
      (peelDash (peelDash (peelDash (peelDash hd))))))))

theorem cache_key_collision :
    getCacheKeyInput "db" "T" "D" (some "") "C" 0 none none =
      getCacheKeyInput "db" "T" "D" none "C" 0 none none ∧
    (some "" : Option String) ≠ (none : Option String) ∧
    getCacheKeyInput "a-b" "c" "D" none "C" 0 none none =
      getCacheKeyInput "a" "b-c" "D" none "C" 0 none none ∧
    ("a-b", "c") ≠ ("a", "b-c") := by decide

theorem cache_key_sensitivity_concrete :
    getCacheKeyInput "x" "T" "D" none "C" 0 none none =
      getCacheKeyInput "x" "T" "D" none "C" 0 none none :=
  cache_key_sensitivity.1 "x" "T" "D" none "C" 0 none none "x" "T" "D" none "C"
    0 none none rfl rfl rfl rfl rfl rfl rfl rfl
